import Mathlib

/-!
Verification development for the employee-engagement-pulse repository.

We give a shallow embedding of the sentiment-scoring pipeline
(`claudeAPIClient.ts`, `sentimentProcessor.ts`, `sentimentValidator.ts`,
the `analyzeSentimentBatch` Convex action) and of the weekly
metrics/insight engine (`insights.ts`), and prove or refute the spec's
claims about them.

JavaScript numbers are modelled by `JSNum`: NaN, the two infinities and a
finite rational.  `Math.min`/`Math.max` and JS comparisons propagate NaN
exactly as in IEEE/JS.  Fields that may be absent at runtime (`undefined`)
are modelled with `Option`.
-/

/-- A JavaScript number: NaN, +Infinity, -Infinity, or a finite value
(idealised as a rational). -/
inductive JSNum where
  | nan
  | posInf
  | negInf
  | fin (q : ℚ)
deriving DecidableEq, Repr

namespace JSNum

/-- `isNaN(x)` in JS. -/
def isNaN : JSNum → Bool
  | nan => true
  | _ => false

/-- `Math.min(a, b)`: NaN-propagating minimum. -/
def jsMin : JSNum → JSNum → JSNum
  | nan, _ => nan
  | _, nan => nan
  | negInf, _ => negInf
  | _, negInf => negInf
  | posInf, y => y
  | x, posInf => x
  | fin a, fin b => fin (min a b)

/-- `Math.max(a, b)`: NaN-propagating maximum. -/
def jsMax : JSNum → JSNum → JSNum
  | nan, _ => nan
  | _, nan => nan
  | posInf, _ => posInf
  | _, posInf => posInf
  | negInf, y => y
  | x, negInf => x
  | fin a, fin b => fin (max a b)

/-- JS `<` comparison: any comparison with NaN is false. -/
def jsLt : JSNum → JSNum → Bool
  | nan, _ => false
  | _, nan => false
  | negInf, negInf => false
  | negInf, _ => true
  | _, negInf => false
  | posInf, _ => false
  | _, posInf => true
  | fin a, fin b => decide (a < b)

/-- JS truthiness of a number: `0` and `NaN` are falsy. -/
def truthy : JSNum → Bool
  | nan => false
  | fin q => decide (q ≠ 0)
  | _ => true

end JSNum

/-- Coercion of a possibly-absent number into arithmetic: `undefined`
coerces to NaN in JS numeric operations. -/
def toNumber : Option JSNum → JSNum
  | none => JSNum.nan
  | some x => x

/-- JS `x || d` on a possibly-absent number: `undefined`, `0` and `NaN`
are falsy and yield the default. -/
def jsOrDefault (x : Option JSNum) (d : JSNum) : JSNum :=
  match x with
  | none => d
  | some v => if v.truthy then v else d

/-- A `JSNum` that is a finite value in `[lo, hi]`. -/
def JSNum.inRange (lo hi : ℚ) : JSNum → Prop
  | JSNum.fin q => lo ≤ q ∧ q ≤ hi
  | _ => False

instance (lo hi : ℚ) (x : JSNum) : Decidable (JSNum.inRange lo hi x) := by
  cases x <;> simp [JSNum.inRange] <;> infer_instance

/-- JS `String.prototype.trim()`: strip leading and trailing whitespace
(modelled over the character list; Lean's own `String.trim` is avoided
because it does not reduce in the kernel). -/
def jsTrim (s : String) : String :=
  ⟨((s.data.dropWhile Char.isWhitespace).reverse.dropWhile Char.isWhitespace).reverse⟩

/-! ## sentimentValidator.ts -/

/-- `ValidationResult` from `sentimentValidator.ts`.  In the source
`sanitizedScore` is typed `number | undefined` but every code path
assigns it, so it is modelled as always present.  The interpolated
numeric values inside error strings are elided. -/
structure ValidationResult where
  isValid : Bool
  errors : List String
  sanitizedScore : JSNum
deriving DecidableEq, Repr

namespace SentimentValidator

/-- `SentimentValidator.validateScore` with the default range `[-1, 1]`:
NaN (or a non-number, impossible in the typed model) gives neutral `0`;
out-of-range values are clamped with `Math.max(min, Math.min(max, score))`;
in-range values pass through. -/
def validateScore (score : JSNum) : ValidationResult :=
  if score.isNaN then
    { isValid := false
      errors := ["Sentiment score must be a valid number"]
      sanitizedScore := JSNum.fin 0 }
  else if score.jsLt (JSNum.fin (-1)) || (JSNum.fin 1).jsLt score then
    { isValid := false
      errors := ["Sentiment score is outside valid range"]
      sanitizedScore := (JSNum.fin (-1)).jsMax ((JSNum.fin 1).jsMin score) }
  else
    { isValid := true, errors := [], sanitizedScore := score }

/-- `SentimentValidator.validateConfidence` with the default range `[0, 1]`:
NaN gives the moderate default `0.5`; out-of-range values are clamped. -/
def validateConfidence (confidence : JSNum) : ValidationResult :=
  if confidence.isNaN then
    { isValid := false
      errors := ["Confidence score must be a valid number"]
      sanitizedScore := JSNum.fin (1/2) }
  else if confidence.jsLt (JSNum.fin 0) || (JSNum.fin 1).jsLt confidence then
    { isValid := false
      errors := ["Confidence score is outside valid range"]
      sanitizedScore := (JSNum.fin 0).jsMax ((JSNum.fin 1).jsMin confidence) }
  else
    { isValid := true, errors := [], sanitizedScore := confidence }

end SentimentValidator

/-! ## claudeAPIClient.ts -/

/-- One entry of `BatchSentimentRequest.messages`. -/
structure BatchMsg where
  id : String
  text : String
  username : String
  timestamp : ℤ
deriving DecidableEq, Repr

/-- `SentimentAnalysisResult` from `claudeAPIClient.ts`. -/
structure SentimentAnalysisResult where
  messageId : String
  sentimentScore : JSNum
  confidence : JSNum
  reasoning : Option String
deriving DecidableEq, Repr

/-- One record of the JSON array parsed out of a classifier reply.  The
numeric fields may be absent at runtime (the code casts `JSON.parse`
output without checking), hence `Option`. -/
structure ParsedRecord where
  messageId : String
  sentimentScore : Option JSNum
  confidence : Option JSNum
deriving DecidableEq, Repr

/-- Outcome of the JSON-extraction step of `parseSentimentResponse`:
either no JSON array was found / `JSON.parse` threw, or it produced a
list of records. -/
inductive ReplyParse where
  | noJson
  | records (rs : List ParsedRecord)
deriving DecidableEq, Repr

namespace ClaudeAPIClient

/-- The per-record sanitisation done inside `parseSentimentResponse`:
`Math.max(-1, Math.min(1, result.sentimentScore))` for the score and
`Math.max(0, Math.min(1, result.confidence || 0.5))` for the confidence. -/
def sanitizeParsedRecord (r : ParsedRecord) : SentimentAnalysisResult :=
  { messageId := r.messageId
    sentimentScore := (JSNum.fin (-1)).jsMax ((JSNum.fin 1).jsMin (toNumber r.sentimentScore))
    confidence := (JSNum.fin 0).jsMax ((JSNum.fin 1).jsMin (jsOrDefault r.confidence (JSNum.fin (1/2))))
    reasoning := none }

/-- `ClaudeAPIClient.parseSentimentResponse`: on a parse failure every
original message gets a neutral low-confidence fallback; on success the
parsed records (not the original messages) are sanitised one by one. -/
def parseSentimentResponse : ReplyParse → List BatchMsg → List SentimentAnalysisResult
  | ReplyParse.noJson, originalMessages =>
      originalMessages.map fun m =>
        { messageId := m.id
          sentimentScore := JSNum.fin 0
          confidence := JSNum.fin (1/10)
          reasoning := some "Failed to parse API response" }
  | ReplyParse.records rs, _ => rs.map sanitizeParsedRecord

/-- Environment of one `processSingleBatch` call: the health-gate result
and, per attempt, either `none` (the API call threw, timed out or
returned an invalid/empty structure) or the parse outcome of its reply
text. -/
structure SubBatchOutcome where
  healthy : Bool
  attempts : List (Option ReplyParse)

/-- `maxRetries` from `claudeAPIClient.ts`. -/
def maxRetries : ℕ := 3

/-- First attempt that produced a reply. -/
def firstReply : List (Option ReplyParse) → Option ReplyParse
  | [] => none
  | some p :: _ => some p
  | none :: rest => firstReply rest

/-- `ClaudeAPIClient.processSingleBatch`: if the health gate fails the
whole sub-batch gets neutral fallbacks without calling the API; otherwise
up to `maxRetries` attempts are made and the first reply is parsed
(`parseSentimentResponse` itself never throws); if every attempt fails
the method throws.  The interpolated `lastError` detail of the thrown
message is elided. -/
def processSingleBatch (o : SubBatchOutcome) (messages : List BatchMsg) :
    Except String (List SentimentAnalysisResult) :=
  if o.healthy = false then
    Except.ok (messages.map fun m =>
      { messageId := m.id
        sentimentScore := JSNum.fin 0
        confidence := JSNum.fin (1/10)
        reasoning := some "Claude API unavailable - using neutral sentiment" })
  else
    match firstReply (o.attempts.take maxRetries) with
    | some p => Except.ok (parseSentimentResponse p messages)
    | none => Except.error "Claude API failed after 3 attempts"

/-- `maxBatchSize` in `analyzeSentimentBatch`. -/
def maxBatchSize : ℕ := 25

end ClaudeAPIClient

/-- Split a list into consecutive chunks of size `n` (`slice(i, i + n)`
loops in the TS sources). -/
def chunkList {α : Type} : ℕ → List α → List (List α)
  | _, [] => []
  | 0, l => [l]
  | n+1, x :: xs => (x :: xs).take (n+1) :: chunkList (n+1) ((x :: xs).drop (n+1))
termination_by _ l => l.length
decreasing_by simp [List.length_drop]; omega

namespace ClaudeAPIClient

/-- The neutral fallback pushed for each message of a failed sub-batch in
`analyzeSentimentBatch`. -/
def batchFallback (e : String) (m : BatchMsg) : SentimentAnalysisResult :=
  { messageId := m.id
    sentimentScore := JSNum.fin 0
    confidence := JSNum.fin (1/10)
    reasoning := some ("Processing failed: " ++ e) }

/-- The sub-batch loop of `analyzeSentimentBatch`: the classifier
environment `oracle` gives the outcome of the `i`-th sub-batch call; a
sub-batch whose `processSingleBatch` throws is replaced by per-message
neutral fallbacks (the `catch` inside the loop). -/
def analyzeGo (oracle : ℕ → SubBatchOutcome) (i : ℕ) :
    List (List BatchMsg) → List SentimentAnalysisResult
  | [] => []
  | sub :: rest =>
      (match processSingleBatch (oracle i) sub with
       | Except.ok rs => rs
       | Except.error e => sub.map (batchFallback e)) ++ analyzeGo oracle (i+1) rest

/-- `ClaudeAPIClient.analyzeSentimentBatch`: split into sub-batches of at
most 25 and run the loop above.  Total by construction — every error of
`processSingleBatch` is caught inside the loop, so the method never
throws. -/
def analyzeSentimentBatch (oracle : ℕ → SubBatchOutcome) (messages : List BatchMsg) :
    List SentimentAnalysisResult :=
  analyzeGo oracle 0 (chunkList maxBatchSize messages)

end ClaudeAPIClient

/-! ## sentimentProcessor.ts and the message store -/

/-- A document of the `messages` table (the fields the scoring pipeline
and the weekly aggregation touch).  A reaction is represented by its
`count` field (its emoji and user list are never read by the code under
study). -/
structure MessageDoc where
  _id : String
  slackChannelId : String
  slackMessageId : String
  userId : String
  text : String
  username : String
  timestamp : ℤ
  threadTs : Option String
  reactions : List ℕ
  sentimentScore : JSNum
  sentimentProcessed : Bool
  isDeleted : Bool
deriving DecidableEq, Repr

namespace SentimentProcessor

/-- `batchSize` of `SentimentProcessor` (messages per API call). -/
def batchSize : ℕ := 50

/-- The eligibility filter at the top of `processBatch`: non-empty text,
not yet scored, not deleted. -/
def validForProcessing (m : MessageDoc) : Bool :=
  decide (0 < (jsTrim m.text).length) && !m.sentimentProcessed && !m.isDeleted

/-- The request entry built from a message in `processBatch`. -/
def toBatchMsg (m : MessageDoc) : BatchMsg :=
  { id := m._id, text := m.text, username := m.username, timestamp := m.timestamp }

/-- The batch loop of `SentimentProcessor.processBatch`.  The oracle gives
each client call (batch index `i`) its own classifier environment.  The
loop's `catch` is dead code in the model because
`ClaudeAPIClient.analyzeSentimentBatch` is total (it never throws). -/
def processBatchGo (oracle : ℕ → ℕ → ClaudeAPIClient.SubBatchOutcome) (i : ℕ) :
    List (List MessageDoc) → List SentimentAnalysisResult
  | [] => []
  | b :: rest =>
      ClaudeAPIClient.analyzeSentimentBatch (oracle i) (b.map toBatchMsg)
        ++ processBatchGo oracle (i+1) rest

/-- `SentimentProcessor.processBatch`: filter eligible messages, split
into batches of at most 50 and drive the client.  The returned
`ProcessingStats` (counts, timing, error strings) are elided; the result
list is what the action consumes. -/
def processBatch (oracle : ℕ → ℕ → ClaudeAPIClient.SubBatchOutcome)
    (messages : List MessageDoc) : List SentimentAnalysisResult :=
  let validMessages := messages.filter validForProcessing
  processBatchGo oracle 0 (chunkList batchSize validMessages)

end SentimentProcessor

namespace SentimentValidator

/-- `SentimentValidator.validateResult`: validates the message id, score
and confidence and builds the sanitised result.  The null-object branch
is dead in the typed model; an empty message id is replaced by
`"unknown"`, any other id is trimmed. -/
def validateResult (r : SentimentAnalysisResult) :
    Bool × List String × SentimentAnalysisResult :=
  let idOk : Bool := decide (0 < (jsTrim r.messageId).length)
  let sv := validateScore r.sentimentScore
  let cv := validateConfidence r.confidence
  let isValid := idOk && sv.isValid && cv.isValid
  let errs := (if idOk then [] else ["Message ID is required and must be a non-empty string"])
    ++ sv.errors ++ cv.errors
  (isValid, errs,
    { messageId := if r.messageId = "" then "unknown" else jsTrim r.messageId
      sentimentScore := sv.sanitizedScore
      confidence := cv.sanitizedScore
      reasoning := r.reasoning })

/-- `SentimentValidator.validateBatch`: one sanitised result per input;
the accompanying `ValidationStats` are elided. -/
def validateBatch (results : List SentimentAnalysisResult) : List SentimentAnalysisResult :=
  results.map fun r => (validateResult r).2.2

end SentimentValidator

/-! ## The `analyzeSentimentBatch` Convex action (the spec's `scoreMessages`) -/

/-- `messages.getUnprocessedMessages`: unscored, non-deleted messages up
to `limit`. -/
def getUnprocessedMessages (store : List MessageDoc) (limit : ℕ) : List MessageDoc :=
  (store.filter fun m => !m.sentimentProcessed && !m.isDeleted).take limit

/-- `messages.updateMessageSentiment`: patch the message with the score
and mark it scored (`processedAt` elided). -/
def updateMessageSentiment (store : List MessageDoc) (messageId : String)
    (score : JSNum) : List MessageDoc :=
  store.map fun m =>
    if m._id = messageId then
      { m with sentimentScore := score, sentimentProcessed := true }
    else m

/-- Summary returned by the scoring action. -/
structure ScoreResponse where
  success : Bool
  processedCount : ℕ
  failedCount : ℕ
  failedMessageIds : List String
deriving DecidableEq, Repr

/-- The eligibility re-check the action applies to each fetched message:
not yet scored, not deleted, non-blank text. -/
def eligibleFetch (m : MessageDoc) : Bool :=
  !m.sentimentProcessed && !m.isDeleted && decide (0 < (jsTrim m.text).length)

/-- The fetch phase of the action: each submitted id is resolved against
the first 1000 unprocessed messages of the store. -/
def scoreFetched (store : List MessageDoc) (messageIds : List String) :
    List (String × Option MessageDoc) :=
  messageIds.map fun id => (id, (getUnprocessedMessages store 1000).find? fun m => m._id = id)

/-- The `validMessages` list the action builds: fetched messages passing
the eligibility re-check, in submission order. -/
def scoreValidMessages (store : List MessageDoc) (messageIds : List String) :
    List MessageDoc :=
  (scoreFetched store messageIds).filterMap fun p =>
    match p.2 with
    | some m => if eligibleFetch m then some m else none
    | none => none

/-- The `failedMessageIds` list of the fetch phase: ids that did not
resolve or whose message failed the re-check. -/
def scoreFailedIds (store : List MessageDoc) (messageIds : List String) : List String :=
  ((scoreFetched store messageIds).filter fun p =>
    match p.2 with
    | some m => !eligibleFetch m
    | none => true).map Prod.fst

/-- The `slack.analyzeSentimentBatch` action — the spec's public scoring
entry point `scoreMessages`.  Messages are resolved against the first
1000 unprocessed messages of the store, filtered for eligibility, scored
through `SentimentProcessor.processBatch`, sanitised by
`SentimentValidator.validateBatch`, and persisted one by one with
`updateMessageSentiment`.  Every branch of the source handler returns a
summary (all failures are caught), which the model reflects by being a
total function. -/
def scoreMessages (oracle : ℕ → ℕ → ClaudeAPIClient.SubBatchOutcome)
    (apiKeyConfigured : Bool) (store : List MessageDoc) (messageIds : List String) :
    ScoreResponse × List MessageDoc :=
  if messageIds = [] then
    ({ success := true, processedCount := 0, failedCount := 0, failedMessageIds := [] }, store)
  else if apiKeyConfigured = false then
    ({ success := false, processedCount := 0, failedCount := messageIds.length,
       failedMessageIds := messageIds }, store)
  else
    let validMessages := scoreValidMessages store messageIds
    let failedMessageIds := scoreFailedIds store messageIds
    if validMessages = [] then
      ({ success := true, processedCount := 0, failedCount := messageIds.length,
         failedMessageIds := failedMessageIds }, store)
    else
      let results := SentimentProcessor.processBatch oracle validMessages
      let sanitizedResults := SentimentValidator.validateBatch results
      let finalStore := sanitizedResults.foldl
        (fun st r => updateMessageSentiment st r.messageId r.sentimentScore) store
      ({ success := decide (failedMessageIds = [])
         processedCount := sanitizedResults.length
         failedCount := failedMessageIds.length
         failedMessageIds := failedMessageIds }, finalStore)

/-! ## insights.ts — metrics, risk, trend -/

/-- The 3-bucket sentiment histogram. -/
structure SentimentDistribution where
  positive : ℕ
  neutral : ℕ
  negative : ℕ
deriving DecidableEq, Repr

/-- `WeeklyMetrics` from `insights.ts`. -/
structure WeeklyMetrics where
  channelId : String
  channelName : String
  avgSentiment : ℚ
  messageCount : ℕ
  activeUsers : ℕ
  threadEngagement : ℚ
  reactionEngagement : ℚ
  sentimentDistribution : SentimentDistribution
  riskFactors : List String
deriving DecidableEq, Repr

/-- The metrics object passed to `calculateRiskFactors`. -/
structure RiskMetrics where
  avgSentiment : ℚ
  messageCount : ℕ
  sentimentDistribution : SentimentDistribution
  threadEngagement : ℚ
  reactionEngagement : ℚ
deriving DecidableEq, Repr

/-- `calculateRiskFactors`: the ordered rule sequence, each rule pushing
at most one factor onto `risks`. -/
def calculateRiskFactors (metrics : RiskMetrics) : List String :=
  let risks : List String := []
  let risks := if metrics.avgSentiment < -(3/10) then
      risks ++ ["High negative sentiment detected"]
    else if metrics.avgSentiment < -(1/10) then
      risks ++ ["Mild negative sentiment trend"]
    else risks
  let risks := if (metrics.sentimentDistribution.negative : ℚ) >
      (metrics.sentimentDistribution.positive : ℚ) * (3/2) then
      risks ++ ["Negative messages significantly outweigh positive"]
    else risks
  let risks := if metrics.threadEngagement < 15 ∧ 20 < metrics.messageCount then
      risks ++ ["Low thread engagement suggests reduced collaboration"]
    else risks
  let risks := if metrics.reactionEngagement < 3/10 ∧ 20 < metrics.messageCount then
      risks ++ ["Low reaction engagement indicates decreased team interaction"]
    else risks
  let risks := if metrics.messageCount < 5 then
      risks ++ ["Very low communication volume"]
    else risks
  risks

/-- Burnout risk level. -/
inductive BurnoutRisk where
  | low
  | medium
  | high
deriving DecidableEq, Repr

/-- The raw additive risk score accumulated by
`calculateChannelBurnoutRisk` before the final clamp. -/
def rawRiskScore (metrics : WeeklyMetrics) : ℕ :=
  (if metrics.avgSentiment < -(4/10) then 3
   else if metrics.avgSentiment < -(2/10) then 2
   else if metrics.avgSentiment < 0 then 1
   else 0)
  + (if metrics.threadEngagement < 10 then 2 else 0)
  + (if metrics.reactionEngagement < 2/10 then 1 else 0)
  + (if metrics.messageCount < 5 then 1
     else if 200 < metrics.messageCount then 1
     else 0)
  + (let total := metrics.sentimentDistribution.positive
        + metrics.sentimentDistribution.neutral + metrics.sentimentDistribution.negative
     if 0 < total then
       let negativeRatio : ℚ := (metrics.sentimentDistribution.negative : ℚ) / (total : ℚ)
       if negativeRatio > 6/10 then 2
       else if negativeRatio > 4/10 then 1
       else 0
     else 0)

/-- The clamped risk score `Math.max(0, Math.min(10, riskScore))`; the
lower clamp is trivial over ℕ. -/
def riskScore (metrics : WeeklyMetrics) : ℕ :=
  min 10 (rawRiskScore metrics)

/-- `calculateChannelBurnoutRisk` (the spec's `classifyChannelRisk`):
high iff the clamped score is at least 5, medium iff at least 3, else
low. -/
def calculateChannelBurnoutRisk (metrics : WeeklyMetrics) : BurnoutRisk :=
  if 5 ≤ riskScore metrics then BurnoutRisk.high
  else if 3 ≤ riskScore metrics then BurnoutRisk.medium
  else BurnoutRisk.low

/-- Round a rational to `k` decimal places (`Number(x.toFixed(k))` in the
source, idealised over ℚ). -/
def roundTo (k : ℕ) (q : ℚ) : ℚ :=
  ((round (q * (10 : ℚ) ^ k) : ℤ) : ℚ) / (10 : ℚ) ^ k

/-- The trend record produced by `calculateTrendAnalysis`. -/
structure TrendAnalysis where
  sentimentChange : ℚ
  activityChange : ℚ
  engagementChange : ℚ
deriving DecidableEq, Repr

/-- `calculateTrendAnalysis` (the spec's `computeTrend`): no previous
metrics give all-zero deltas; otherwise the sentiment delta is the plain
difference clamped to `[-2, 2]` and the activity/engagement deltas are
percentage changes (with the `previous = 0 < current` case pinned to
`100`) clamped to `[-100, 1000]`; all three are rounded as in the
source's `toFixed` calls.  The `isNaN` re-checks of the source are dead
over ℚ. -/
def calculateTrendAnalysis (current : WeeklyMetrics) (previous : Option WeeklyMetrics) :
    TrendAnalysis :=
  match previous with
  | none => { sentimentChange := 0, activityChange := 0, engagementChange := 0 }
  | some prev =>
    let sentimentChange := current.avgSentiment - prev.avgSentiment
    let activityChange : ℚ :=
      if 0 < prev.messageCount then
        ((current.messageCount : ℚ) - (prev.messageCount : ℚ)) / (prev.messageCount : ℚ) * 100
      else if 0 < current.messageCount then 100 else 0
    let engagementChange : ℚ :=
      if 0 < prev.threadEngagement then
        (current.threadEngagement - prev.threadEngagement) / prev.threadEngagement * 100
      else if 0 < current.threadEngagement then 100 else 0
    { sentimentChange := roundTo 3 (max (-2) (min 2 sentimentChange))
      activityChange := roundTo 1 (max (-100) (min 1000 activityChange))
      engagementChange := roundTo 1 (max (-100) (min 1000 engagementChange)) }

/-! ## insights.ts — weekly per-channel aggregation -/

/-- The numeric value of a stored sentiment score as the aggregation
reads it.  Post-validation scores are always finite; a non-finite score
contributes like the code's `typeof`-guard default. -/
def scoreValue : JSNum → ℚ
  | JSNum.fin q => q
  | _ => 0

/-- `getMessagesInDateRange`: the in-window, scored, non-deleted
messages of one channel.  The cursor-paginated scan is modelled as a
single bounded pass; the `maxTotalMessages = 2000` cap that silently
excludes excess messages is retained. -/
def getMessagesInDateRange (store : List MessageDoc) (channelId : String)
    (weekStart weekEnd : ℤ) : List MessageDoc :=
  (store.filter fun m =>
    decide (m.slackChannelId = channelId) &&
    decide (weekStart ≤ m.timestamp) && decide (m.timestamp ≤ weekEnd) &&
    m.sentimentProcessed && !m.isDeleted).take 2000

/-- The metrics record returned for a channel with no data, with the
given risk factor. -/
def emptyChannelMetrics (channelId channelName factor : String) : WeeklyMetrics :=
  { channelId := channelId
    channelName := channelName
    avgSentiment := 0
    messageCount := 0
    activeUsers := 0
    threadEngagement := 0
    reactionEngagement := 0
    sentimentDistribution := { positive := 0, neutral := 0, negative := 0 }
    riskFactors := [factor] }

/-- The per-channel body of `calculateWeeklyMetrics` (the spec's
`computeWeeklyMetrics` for one channel).  The second eligibility filter
(`typeof m.sentimentScore === 'number'`) is the identity in the typed
model, so `validMessages = messages`. -/
def channelWeeklyMetrics (store : List MessageDoc) (channelId channelName : String)
    (weekStart weekEnd : ℤ) : WeeklyMetrics :=
  let messages := getMessagesInDateRange store channelId weekStart weekEnd
  if messages = [] then
    emptyChannelMetrics channelId channelName "No message activity this week"
  else
    let validMessages := messages
    let uniqueUsers := (validMessages.map MessageDoc.userId).dedup.length
    let threadsCount := (validMessages.filter fun m =>
      match m.threadTs with
      | some t => decide (t ≠ m.slackMessageId)
      | none => false).length
    let reactionsCount := validMessages.foldl (fun s m => s + m.reactions.sum) (0 : ℕ)
    let sentimentSum := validMessages.foldl (fun s m => s + scoreValue m.sentimentScore) (0 : ℚ)
    let avgSentiment := sentimentSum / (validMessages.length : ℚ)
    let sentimentDistribution : SentimentDistribution :=
      { positive := (validMessages.filter fun m => decide (1/10 < scoreValue m.sentimentScore)).length
        negative := (validMessages.filter fun m => decide (scoreValue m.sentimentScore < -(1/10))).length
        neutral := (validMessages.filter fun m =>
          decide (¬ (1/10 < scoreValue m.sentimentScore)) &&
          decide (¬ (scoreValue m.sentimentScore < -(1/10)))).length }
    let threadEngagement := (threadsCount : ℚ) / (validMessages.length : ℚ) * 100
    let reactionEngagement := (reactionsCount : ℚ) / (validMessages.length : ℚ)
    let riskFactors := calculateRiskFactors
      { avgSentiment := avgSentiment
        messageCount := validMessages.length
        sentimentDistribution := sentimentDistribution
        threadEngagement := threadEngagement
        reactionEngagement := reactionEngagement }
    { channelId := channelId
      channelName := channelName
      avgSentiment := roundTo 3 avgSentiment
      messageCount := validMessages.length
      activeUsers := uniqueUsers
      threadEngagement := roundTo 1 threadEngagement
      reactionEngagement := roundTo 2 reactionEngagement
      sentimentDistribution := sentimentDistribution
      riskFactors := riskFactors }

/-! ## insights.ts — circuit breaker around AI insight generation -/

/-- The `state` field of `CircuitBreakerState`; `opened` renders the
source's `'open'` (a Lean keyword). -/
inductive CBStatus where
  | closed
  | opened
  | halfOpen
deriving DecidableEq, Repr

/-- `CircuitBreakerState` from `insights.ts`. -/
structure CircuitBreakerState where
  failures : ℕ
  lastFailureTime : ℤ
  state : CBStatus
deriving DecidableEq, Repr

/-- `CIRCUIT_BREAKER_THRESHOLD` from `insights.ts`. -/
def CIRCUIT_BREAKER_THRESHOLD : ℕ := 3

/-- `CIRCUIT_BREAKER_TIMEOUT` (the cooldown, in milliseconds). -/
def CIRCUIT_BREAKER_TIMEOUT : ℤ := 60000

/-- Observable outcome of one `generateAIInsights` call: the breaker
after the call, whether the classifier (Claude) was actually invoked,
and whether the fallback insight generator produced the result. -/
structure CBCallResult where
  breaker : CircuitBreakerState
  invokedClassifier : Bool
  usedFallback : Bool
deriving DecidableEq, Repr

/-- The circuit-breaker behaviour of `generateAIInsights`, with the call
outcome abstracted into `callSucceeds` (an API error, timeout, or parse
failure all land in the same `catch`).  An open breaker inside the
cooldown short-circuits to the fallback without calling the API; past
the cooldown the call runs half-open; a success in half-open closes the
breaker and resets the counter; a failure increments the counter, stamps
the time, and opens the breaker once the threshold is reached. -/
def generateAIInsights (cb : CircuitBreakerState) (now : ℤ) (callSucceeds : Bool) :
    CBCallResult :=
  if cb.state = CBStatus.opened ∧ now - cb.lastFailureTime < CIRCUIT_BREAKER_TIMEOUT then
    { breaker := cb, invokedClassifier := false, usedFallback := true }
  else
    let cb1 := if cb.state = CBStatus.opened then { cb with state := CBStatus.halfOpen } else cb
    if callSucceeds then
      if cb1.state = CBStatus.halfOpen then
        { breaker := { cb1 with state := CBStatus.closed, failures := 0 }
          invokedClassifier := true, usedFallback := false }
      else
        { breaker := cb1, invokedClassifier := true, usedFallback := false }
    else
      let f := cb1.failures + 1
      { breaker :=
          { failures := f
            lastFailureTime := now
            state := if CIRCUIT_BREAKER_THRESHOLD ≤ f then CBStatus.opened else cb1.state }
        invokedClassifier := true
        usedFallback := true }

/-- Breaker states reachable from the module-initial
`{failures := 0, lastFailureTime := 0, state := closed}` through
`generateAIInsights` calls. -/
inductive CBReachable : CircuitBreakerState → Prop where
  | init : CBReachable { failures := 0, lastFailureTime := 0, state := CBStatus.closed }
  | step (cb : CircuitBreakerState) (t : ℤ) (s : Bool) :
      CBReachable cb → CBReachable (generateAIInsights cb t s).breaker

/-! ## insights.ts — WeeklyInsight storage -/

/-- The `metrics` snapshot stored with a WeeklyInsight (all fields pass
through `Number(...) || 0`, hence plain rationals). -/
structure InsightMetricsSnapshot where
  avgSentiment : ℚ
  messageCount : ℚ
  activeUsers : ℚ
  threadEngagement : ℚ
  reactionEngagement : ℚ
deriving DecidableEq, Repr

/-- `generatedBy` of a WeeklyInsight. -/
inductive TriggerType where
  | system
  | manual
deriving DecidableEq, Repr

/-- The argument object of the `storeWeeklyInsight` mutation. -/
structure InsightArgs where
  weekStart : ℤ
  weekEnd : ℤ
  slackChannelId : String
  metrics : InsightMetricsSnapshot
  burnoutRisk : BurnoutRisk
  riskFactors : List String
  actionableInsights : List String
  trendAnalysis : TrendAnalysis
  generatedBy : TriggerType
deriving DecidableEq, Repr

/-- A row of the `weeklyInsights` table: its id, the last-stored argument
payload, and the `generatedAt` stamp. -/
structure StoredInsight where
  _id : ℕ
  payload : InsightArgs
  generatedAt : ℤ
deriving DecidableEq, Repr

/-- The `weeklyInsights` table plus the id allocator of the store. -/
structure InsightDB where
  records : List StoredInsight
  nextId : ℕ
deriving DecidableEq, Repr

/-- The filter used by `storeWeeklyInsight` to look up an existing row:
same `weekStart` and same `slackChannelId`. -/
def insightKeyMatches (weekStart : ℤ) (slackChannelId : String) (r : StoredInsight) : Bool :=
  decide (r.payload.weekStart = weekStart ∧ r.payload.slackChannelId = slackChannelId)

/-- The `storeWeeklyInsight` mutation: find the first row for
`(weekStart, slackChannelId)`; patch it with the new payload if it
exists, insert a fresh row otherwise.  Returns the updated table and the
id of the written row. -/
def storeWeeklyInsight (db : InsightDB) (args : InsightArgs) (now : ℤ) : InsightDB × ℕ :=
  match db.records.find? (insightKeyMatches args.weekStart args.slackChannelId) with
  | some existing =>
      ({ db with records := db.records.map fun r =>
          if r._id = existing._id then
            { _id := existing._id, payload := args, generatedAt := now }
          else r },
       existing._id)
  | none =>
      ({ records := db.records ++ [{ _id := db.nextId, payload := args, generatedAt := now }]
         nextId := db.nextId + 1 },
       db.nextId)

/-- Well-formedness of the insight table: distinct row ids, all below the
allocator. -/
def InsightDB.WF (db : InsightDB) : Prop :=
  (db.records.map StoredInsight._id).Nodup ∧ ∀ r ∈ db.records, r._id < db.nextId

/-- Number of rows stored for a `(weekStart, slackChannelId)` key. -/
def insightKeyCount (db : InsightDB) (weekStart : ℤ) (slackChannelId : String) : ℕ :=
  (db.records.filter (insightKeyMatches weekStart slackChannelId)).length

/-! # Claims -/

/-! ## C3 — validateScore sanitisation -/

/-- C3 counterexample: the claim says an infinite input is sanitised to
exactly 0, but `validateScore(+Infinity)` takes the clamping branch
(`isNaN(Infinity)` is false) and returns 1, not 0. -/
theorem validateScore_posInf_counterexample :
    (SentimentValidator.validateScore JSNum.posInf).sanitizedScore = JSNum.fin 1 ∧
    (SentimentValidator.validateScore JSNum.posInf).sanitizedScore ≠ JSNum.fin 0 := by
  constructor
  · simp [SentimentValidator.validateScore, JSNum.isNaN, JSNum.jsLt, JSNum.jsMin, JSNum.jsMax]
  · simp [SentimentValidator.validateScore, JSNum.isNaN, JSNum.jsLt, JSNum.jsMin, JSNum.jsMax]

/-- On a finite input `validateScore` always returns the clamp
`max(-1, min(1, q))`: the out-of-range branch computes it, and in range
it is the identity. -/
lemma validateScore_fin (q : ℚ) :
    (SentimentValidator.validateScore (JSNum.fin q)).sanitizedScore
      = JSNum.fin (max (-1) (min 1 q)) := by
  by_cases hlo : q < -1
  · simp [SentimentValidator.validateScore, JSNum.isNaN, JSNum.jsLt, JSNum.jsMin,
      JSNum.jsMax, hlo]
  · by_cases hhi : (1:ℚ) < q
    · simp [SentimentValidator.validateScore, JSNum.isNaN, JSNum.jsLt, JSNum.jsMin,
        JSNum.jsMax, hlo, hhi]
    · have h1 : min 1 q = q := min_eq_right (le_of_not_lt hhi)
      have h2 : max (-1) q = q := max_eq_right (le_of_not_lt hlo)
      simp [SentimentValidator.validateScore, JSNum.isNaN, JSNum.jsLt, JSNum.jsMin,
        JSNum.jsMax, hlo, hhi, h1, h2]

/-- The clamp of any rational to `[-1, 1]` lands in `[-1, 1]`. -/
lemma clamp_unit_mem (q : ℚ) : -1 ≤ max (-1) (min 1 q) ∧ max (-1) (min 1 q) ≤ 1 :=
  ⟨le_max_left _ _, max_le (by norm_num) (min_le_left _ _)⟩

/-- C3 (amended): for every input, `validateScore` produces a sanitised
score that is a finite value in `[-1, 1]`; a NaN input gives exactly 0;
`+Infinity` and `-Infinity` are clamped to 1 and -1 respectively; and a
finite input is clamped to `[-1, 1]`. -/
theorem validateScore_sanitizes (s : JSNum) :
    (SentimentValidator.validateScore s).sanitizedScore.inRange (-1) 1
    ∧ (s.isNaN = true → (SentimentValidator.validateScore s).sanitizedScore = JSNum.fin 0)
    ∧ (s = JSNum.posInf → (SentimentValidator.validateScore s).sanitizedScore = JSNum.fin 1)
    ∧ (s = JSNum.negInf → (SentimentValidator.validateScore s).sanitizedScore = JSNum.fin (-1))
    ∧ (∀ q : ℚ, s = JSNum.fin q →
        (SentimentValidator.validateScore s).sanitizedScore = JSNum.fin (max (-1) (min 1 q))) := by
  cases s with
  | nan =>
      refine ⟨?_, ?_, ?_, ?_, ?_⟩ <;>
        simp [SentimentValidator.validateScore, JSNum.isNaN, JSNum.inRange]
  | posInf =>
      refine ⟨?_, ?_, ?_, ?_, ?_⟩ <;>
        simp [SentimentValidator.validateScore, JSNum.isNaN, JSNum.jsLt, JSNum.jsMin,
          JSNum.jsMax, JSNum.inRange]
  | negInf =>
      refine ⟨?_, ?_, ?_, ?_, ?_⟩ <;>
        simp [SentimentValidator.validateScore, JSNum.isNaN, JSNum.jsLt, JSNum.jsMin,
          JSNum.jsMax, JSNum.inRange]
  | fin q =>
      refine ⟨?_, ?_, ?_, ?_, ?_⟩
      · rw [validateScore_fin q]
        exact clamp_unit_mem q
      · intro h; simp [JSNum.isNaN] at h
      · intro h; exact absurd h (by simp)
      · intro h; exact absurd h (by simp)
      · intro q' hq'
        injection hq' with h
        subst h
        exact validateScore_fin _

/-- C3 witness: the amended theorem applied at the concrete out-of-range
input 2, which is clamped to 1. -/
theorem validateScore_sanitizes_witness :
    (SentimentValidator.validateScore (JSNum.fin 2)).sanitizedScore
      = JSNum.fin (max (-1) (min 1 (2:ℚ))) :=
  (validateScore_sanitizes (JSNum.fin 2)).2.2.2.2 2 rfl

/-! ## C5 — channel burnout risk classification -/

/-- C5: the risk score of `calculateChannelBurnoutRisk` is an integer
clamped to at most 10 (its lower clamp to 0 is trivial over ℕ); the
classification is high iff the score is at least 5, medium iff it is in
`[3, 5)`, low iff it is below 3; and any channel with average sentiment
-0.5, thread-reply ratio 5% and 30 messages is classified high. -/
theorem channelBurnoutRisk_classification :
    (∀ m : WeeklyMetrics, riskScore m ≤ 10)
    ∧ (∀ m : WeeklyMetrics, calculateChannelBurnoutRisk m = BurnoutRisk.high ↔ 5 ≤ riskScore m)
    ∧ (∀ m : WeeklyMetrics, calculateChannelBurnoutRisk m = BurnoutRisk.medium ↔
        (3 ≤ riskScore m ∧ riskScore m < 5))
    ∧ (∀ m : WeeklyMetrics, calculateChannelBurnoutRisk m = BurnoutRisk.low ↔ riskScore m < 3)
    ∧ (∀ m : WeeklyMetrics, m.avgSentiment = -(1/2) → m.threadEngagement = 5 →
        m.messageCount = 30 → calculateChannelBurnoutRisk m = BurnoutRisk.high) := by
  have hhigh : ∀ m : WeeklyMetrics,
      calculateChannelBurnoutRisk m = BurnoutRisk.high ↔ 5 ≤ riskScore m := by
    intro m
    unfold calculateChannelBurnoutRisk
    split_ifs with h1 h2 <;> simp_all <;> omega
  refine ⟨?_, hhigh, ?_, ?_, ?_⟩
  · intro m
    exact min_le_left _ _
  · intro m
    unfold calculateChannelBurnoutRisk
    split_ifs with h1 h2 <;> simp_all <;> omega
  · intro m
    unfold calculateChannelBurnoutRisk
    split_ifs with h1 h2 <;> simp_all <;> omega
  · intro m hs ht hc
    rw [hhigh m]
    have hraw : 5 ≤ rawRiskScore m := by
      unfold rawRiskScore
      rw [hs, ht, hc]
      have h1 : (-(1/2) : ℚ) < -(4/10) := by norm_num
      have h2 : (5 : ℚ) < 10 := by norm_num
      simp only [if_pos h1, if_pos h2]
      have h3 : ¬ (30 < 5) := by norm_num
      have h4 : ¬ (200 < 30) := by norm_num
      split_ifs <;> omega
    unfold riskScore
    omega

/-- C5 witness: the high-classification clause applied to a concrete
channel with average sentiment -0.5, thread engagement 5% and 30
messages. -/
theorem channelBurnoutRisk_classification_witness :
    calculateChannelBurnoutRisk
      { channelId := "C1", channelName := "general", avgSentiment := -(1/2),
        messageCount := 30, activeUsers := 4, threadEngagement := 5,
        reactionEngagement := 1,
        sentimentDistribution := { positive := 10, neutral := 10, negative := 10 },
        riskFactors := [] } = BurnoutRisk.high :=
  channelBurnoutRisk_classification.2.2.2.2 _ rfl rfl rfl

/-! ## C6 — risk factor rules -/

/-- The sentiment rule slot of `calculateRiskFactors` (an `if/else-if`
pair, hence at most one factor). -/
def sentimentFactorSlot (m : RiskMetrics) : List String :=
  if m.avgSentiment < -(3/10) then ["High negative sentiment detected"]
  else if m.avgSentiment < -(1/10) then ["Mild negative sentiment trend"]
  else []

/-- The negative-outweighs-positive rule slot. -/
def negOutweighSlot (m : RiskMetrics) : List String :=
  if (m.sentimentDistribution.negative : ℚ) > (m.sentimentDistribution.positive : ℚ) * (3/2)
  then ["Negative messages significantly outweigh positive"] else []

/-- The low-thread-engagement rule slot. -/
def lowThreadSlot (m : RiskMetrics) : List String :=
  if m.threadEngagement < 15 ∧ 20 < m.messageCount
  then ["Low thread engagement suggests reduced collaboration"] else []

/-- The low-reaction-engagement rule slot. -/
def lowReactionSlot (m : RiskMetrics) : List String :=
  if m.reactionEngagement < 3/10 ∧ 20 < m.messageCount
  then ["Low reaction engagement indicates decreased team interaction"] else []

/-- The very-low-volume rule slot. -/
def lowVolumeSlot (m : RiskMetrics) : List String :=
  if m.messageCount < 5 then ["Very low communication volume"] else []

/-- C6 counterexample: a channel with thread ratio 5% and exactly 20
messages.  The claim (and the spec) say the low-collaboration rule fires
at "≥ 20 messages", but the source condition is `messageCount > 20`, so
no factor is produced here. -/
theorem riskFactors_twenty_messages_counterexample :
    (5 : ℚ) < 15 ∧
    20 ≤ (20 : ℕ) ∧
    calculateRiskFactors
      { avgSentiment := 0, messageCount := 20,
        sentimentDistribution := { positive := 0, neutral := 20, negative := 0 },
        threadEngagement := 5, reactionEngagement := 1 } = [] := by
  refine ⟨by norm_num, le_refl _, ?_⟩
  simp [calculateRiskFactors]
  norm_num

/-- C6 (amended): `calculateRiskFactors` is the concatenation, in
rule-definition order, of five independent slots, each contributing at
most one factor: the sentiment rule (high-negative below -0.3, else mild
below -0.1), the negative-outweighs rule (negative bucket above 1.5×
positive), the low-collaboration rule (thread ratio below 15% with MORE
THAN 20 messages — not "at least 20" as claimed), the low-reaction rule,
and the very-low-volume rule (fewer than 5 messages). -/
theorem calculateRiskFactors_rules (m : RiskMetrics) :
    calculateRiskFactors m =
      sentimentFactorSlot m ++ negOutweighSlot m ++ lowThreadSlot m
        ++ lowReactionSlot m ++ lowVolumeSlot m
    ∧ (sentimentFactorSlot m).length ≤ 1
    ∧ (negOutweighSlot m).length ≤ 1
    ∧ (lowThreadSlot m).length ≤ 1
    ∧ (lowReactionSlot m).length ≤ 1
    ∧ (lowVolumeSlot m).length ≤ 1
    ∧ ("High negative sentiment detected" ∈ sentimentFactorSlot m ↔ m.avgSentiment < -(3/10))
    ∧ (negOutweighSlot m ≠ [] ↔
        (m.sentimentDistribution.negative : ℚ) > (m.sentimentDistribution.positive : ℚ) * (3/2))
    ∧ (lowThreadSlot m ≠ [] ↔ (m.threadEngagement < 15 ∧ 20 < m.messageCount))
    ∧ (lowVolumeSlot m ≠ [] ↔ m.messageCount < 5) := by
  refine ⟨?_, ?_, ?_, ?_, ?_, ?_, ?_, ?_, ?_, ?_⟩
  · unfold calculateRiskFactors sentimentFactorSlot negOutweighSlot lowThreadSlot
      lowReactionSlot lowVolumeSlot
    split_ifs <;> simp
  · unfold sentimentFactorSlot; split_ifs <;> simp
  · unfold negOutweighSlot; split_ifs <;> simp
  · unfold lowThreadSlot; split_ifs <;> simp
  · unfold lowReactionSlot; split_ifs <;> simp
  · unfold lowVolumeSlot; split_ifs <;> simp
  · unfold sentimentFactorSlot
    split_ifs with h1 h2 <;> simp [h1]
  · unfold negOutweighSlot; split_ifs with h <;> simp [h]
  · unfold lowThreadSlot; split_ifs with h <;> simp [h]
  · unfold lowVolumeSlot; split_ifs with h <;> simp [h]

/-- C6 witness: the rule decomposition applied at a concrete metrics
record where the high-negative-sentiment and very-low-volume rules both
fire, in order. -/
theorem calculateRiskFactors_rules_witness :
    calculateRiskFactors
      { avgSentiment := -(1/2), messageCount := 3,
        sentimentDistribution := { positive := 0, neutral := 1, negative := 2 },
        threadEngagement := 50, reactionEngagement := 1 } =
      sentimentFactorSlot
        { avgSentiment := -(1/2), messageCount := 3,
          sentimentDistribution := { positive := 0, neutral := 1, negative := 2 },
          threadEngagement := 50, reactionEngagement := 1 }
      ++ negOutweighSlot
        { avgSentiment := -(1/2), messageCount := 3,
          sentimentDistribution := { positive := 0, neutral := 1, negative := 2 },
          threadEngagement := 50, reactionEngagement := 1 }
      ++ lowThreadSlot
        { avgSentiment := -(1/2), messageCount := 3,
          sentimentDistribution := { positive := 0, neutral := 1, negative := 2 },
          threadEngagement := 50, reactionEngagement := 1 }
      ++ lowReactionSlot
        { avgSentiment := -(1/2), messageCount := 3,
          sentimentDistribution := { positive := 0, neutral := 1, negative := 2 },
          threadEngagement := 50, reactionEngagement := 1 }
      ++ lowVolumeSlot
        { avgSentiment := -(1/2), messageCount := 3,
          sentimentDistribution := { positive := 0, neutral := 1, negative := 2 },
          threadEngagement := 50, reactionEngagement := 1 } :=
  (calculateRiskFactors_rules _).1

/-! ## C7 — empty window metrics -/

/-- C7: when a channel's window holds no eligible (in-range, scored,
non-deleted) message, the weekly metrics report zero messages, zero
average sentiment, and the "no activity" risk factor. -/
theorem channelWeeklyMetrics_empty_window (store : List MessageDoc)
    (channelId channelName : String) (weekStart weekEnd : ℤ)
    (h : ∀ m ∈ store, ¬ (m.slackChannelId = channelId ∧
      weekStart ≤ m.timestamp ∧ m.timestamp ≤ weekEnd ∧
      m.sentimentProcessed = true ∧ m.isDeleted = false)) :
    (channelWeeklyMetrics store channelId channelName weekStart weekEnd).messageCount = 0
    ∧ (channelWeeklyMetrics store channelId channelName weekStart weekEnd).avgSentiment = 0
    ∧ "No message activity this week"
        ∈ (channelWeeklyMetrics store channelId channelName weekStart weekEnd).riskFactors := by
  have hfil : getMessagesInDateRange store channelId weekStart weekEnd = [] := by
    unfold getMessagesInDateRange
    have : store.filter (fun m =>
        decide (m.slackChannelId = channelId) &&
        decide (weekStart ≤ m.timestamp) && decide (m.timestamp ≤ weekEnd) &&
        m.sentimentProcessed && !m.isDeleted) = [] := by
      rw [List.filter_eq_nil]
      intro m hm
      have hm' := h m hm
      simp only [Bool.and_eq_true, decide_eq_true_eq, Bool.not_eq_true']
      intro hc
      exact hm' ⟨hc.1.1.1.1, hc.1.1.1.2, hc.1.1.2, hc.1.2, hc.2⟩
    rw [this]
    rfl
  unfold channelWeeklyMetrics
  rw [hfil]
  simp [emptyChannelMetrics]

/-- C7 witness: the empty-window theorem applied to a store holding one
deleted message of the channel inside the window and one live message
outside it. -/
theorem channelWeeklyMetrics_empty_window_witness :
    (channelWeeklyMetrics
      [{ _id := "m1", slackChannelId := "C9", slackMessageId := "1.1", userId := "U1",
         text := "hello", username := "ann", timestamp := 100, threadTs := none,
         reactions := [], sentimentScore := JSNum.fin 0, sentimentProcessed := true,
         isDeleted := true },
       { _id := "m2", slackChannelId := "C9", slackMessageId := "1.2", userId := "U2",
         text := "bye", username := "bob", timestamp := 9999, threadTs := none,
         reactions := [], sentimentScore := JSNum.fin 0, sentimentProcessed := true,
         isDeleted := false }]
      "C9" "general" 0 1000).messageCount = 0 :=
  (channelWeeklyMetrics_empty_window _ "C9" "general" 0 1000 (by
    intro m hm
    simp only [List.mem_cons, List.mem_singleton] at hm
    rcases hm with rfl | rfl | h
    · intro hc; simp at hc
    · intro hc
      have := hc.2.2.1
      norm_num at this
    · cases h)).1

/-! ## C9 — trend analysis -/

/-- Rounding to the nearest integer respects an integer upper bound. -/
lemma round_le_int {x : ℚ} {n : ℤ} (h : x ≤ n) : round x ≤ n := by
  rw [round_eq]
  have h1 : (⌊x + 1/2⌋ : ℤ) ≤ ⌊(n : ℚ) + 1/2⌋ := Int.floor_mono (by linarith)
  have h2 : (⌊(n : ℚ) + 1/2⌋ : ℤ) = n := by
    rw [Int.floor_eq_iff] <;> push_cast <;> constructor <;> linarith
  omega

/-- Rounding to the nearest integer respects an integer lower bound. -/
lemma int_le_round {x : ℚ} {n : ℤ} (h : (n : ℚ) ≤ x) : n ≤ round x := by
  rw [round_eq]
  have h1 : (⌊(n : ℚ) + 1/2⌋ : ℤ) ≤ ⌊x + 1/2⌋ := Int.floor_mono (by linarith)
  have h2 : (⌊(n : ℚ) + 1/2⌋ : ℤ) = n := by
    rw [Int.floor_eq_iff] <;> push_cast <;> constructor <;> linarith
  omega

/-- `roundTo` respects an integer upper bound. -/
lemma roundTo_le_int (k : ℕ) {q : ℚ} {n : ℤ} (h : q ≤ n) : roundTo k q ≤ n := by
  unfold roundTo
  have hp : (0 : ℚ) < (10 : ℚ) ^ k := by positivity
  rw [div_le_iff hp]
  have hq : q * (10 : ℚ) ^ k ≤ ((n * (10 : ℕ) ^ k : ℤ) : ℚ) := by
    push_cast
    nlinarith
  have := round_le_int hq
  calc ((round (q * (10 : ℚ) ^ k) : ℤ) : ℚ) ≤ ((n * (10 : ℕ) ^ k : ℤ) : ℚ) := by exact_mod_cast this
    _ = (n : ℚ) * (10 : ℚ) ^ k := by push_cast; ring

/-- `roundTo` respects an integer lower bound. -/
lemma int_le_roundTo (k : ℕ) {q : ℚ} {n : ℤ} (h : (n : ℚ) ≤ q) : (n : ℚ) ≤ roundTo k q := by
  unfold roundTo
  have hp : (0 : ℚ) < (10 : ℚ) ^ k := by positivity
  rw [le_div_iff hp]
  have hq : ((n * (10 : ℕ) ^ k : ℤ) : ℚ) ≤ q * (10 : ℚ) ^ k := by
    push_cast
    nlinarith
  have := int_le_round hq
  calc (n : ℚ) * (10 : ℚ) ^ k = ((n * (10 : ℕ) ^ k : ℤ) : ℚ) := by push_cast; ring
    _ ≤ ((round (q * (10 : ℚ) ^ k) : ℤ) : ℚ) := by exact_mod_cast this

/-- `roundTo k` moves a value by at most half of the last retained
decimal place. -/
lemma abs_roundTo_sub (k : ℕ) (q : ℚ) : |roundTo k q - q| ≤ 1 / (2 * (10 : ℚ) ^ k) := by
  unfold roundTo
  have hp : (0 : ℚ) < (10 : ℚ) ^ k := by positivity
  have h := abs_sub_round (q * (10 : ℚ) ^ k)
  rw [abs_sub_comm] at h
  have key : ((round (q * (10 : ℚ) ^ k) : ℤ) : ℚ) / (10 : ℚ) ^ k - q
      = (((round (q * (10 : ℚ) ^ k) : ℤ) : ℚ) - q * (10 : ℚ) ^ k) / (10 : ℚ) ^ k := by
    field_simp
    ring
  rw [key, abs_div, abs_of_pos hp, div_le_div_iff hp (by positivity)]
  nlinarith [hp]

/-- The lower half of the clamp survives `roundTo` when the lower bound
is an integer. -/
lemma rat_le_roundTo_clamp (k : ℕ) (lo hi x : ℚ) (nlo : ℤ) (hlo : lo = (nlo : ℚ)) :
    lo ≤ roundTo k (max lo (min hi x)) := by
  rw [hlo]
  exact int_le_roundTo k (le_max_left _ _)

/-- The upper half of the clamp survives `roundTo` when the upper bound
is an integer. -/
lemma roundTo_clamp_le_rat (k : ℕ) (lo hi x : ℚ) (nhi : ℤ) (hhi : hi = (nhi : ℚ))
    (h : lo ≤ hi) : roundTo k (max lo (min hi x)) ≤ hi := by
  rw [hhi] at h ⊢
  exact roundTo_le_int k (max_le h (min_le_left _ _))

/-- `roundTo` is the identity on a value with at most `k` decimals. -/
lemma roundTo_exact (k : ℕ) (q : ℚ) (n : ℤ) (h : q * (10 : ℚ) ^ k = (n : ℚ)) :
    roundTo k q = q := by
  unfold roundTo
  rw [h, round_intCast]
  have hp : (0 : ℚ) < (10 : ℚ) ^ k := by positivity
  field_simp [← h]

/-- C9: `calculateTrendAnalysis` returns all-zero deltas without previous
metrics; with previous metrics the sentiment delta equals
`current.avg - previous.avg` up to the 3-decimal rounding whenever that
difference is within the `[-2, 2]` clamp; the activity and engagement
deltas are pinned to +100 when the previous value is 0 and the current
one positive; all three deltas are clamped (`[-2, 2]` and
`[-100, 1000]`); and the `0.2 → 0.5` example gives exactly 0.3. -/
theorem calculateTrendAnalysis_spec :
    (∀ c : WeeklyMetrics, calculateTrendAnalysis c none =
      { sentimentChange := 0, activityChange := 0, engagementChange := 0 })
    ∧ (∀ c p : WeeklyMetrics, |c.avgSentiment - p.avgSentiment| ≤ 2 →
        |(calculateTrendAnalysis c (some p)).sentimentChange
          - (c.avgSentiment - p.avgSentiment)| ≤ 1/1000)
    ∧ (∀ c p : WeeklyMetrics, p.messageCount = 0 → 0 < c.messageCount →
        (calculateTrendAnalysis c (some p)).activityChange = 100)
    ∧ (∀ c p : WeeklyMetrics, p.threadEngagement = 0 → 0 < c.threadEngagement →
        (calculateTrendAnalysis c (some p)).engagementChange = 100)
    ∧ (∀ c p : WeeklyMetrics,
        |(calculateTrendAnalysis c (some p)).sentimentChange| ≤ 2
        ∧ -100 ≤ (calculateTrendAnalysis c (some p)).activityChange
        ∧ (calculateTrendAnalysis c (some p)).activityChange ≤ 1000
        ∧ -100 ≤ (calculateTrendAnalysis c (some p)).engagementChange
        ∧ (calculateTrendAnalysis c (some p)).engagementChange ≤ 1000)
    ∧ (∀ c p : WeeklyMetrics, p.avgSentiment = 1/5 → c.avgSentiment = 1/2 →
        (calculateTrendAnalysis c (some p)).sentimentChange = 3/10) := by
  refine ⟨fun c => rfl, ?_, ?_, ?_, ?_, ?_⟩
  · intro c p hd
    have habs := abs_le.mp hd
    have h1 : min 2 (c.avgSentiment - p.avgSentiment) = c.avgSentiment - p.avgSentiment :=
      min_eq_right habs.2
    have h2 : max (-2) (c.avgSentiment - p.avgSentiment) = c.avgSentiment - p.avgSentiment :=
      max_eq_right habs.1
    show |roundTo 3 (max (-2) (min 2 (c.avgSentiment - p.avgSentiment)))
      - (c.avgSentiment - p.avgSentiment)| ≤ 1/1000
    rw [h1, h2]
    calc |roundTo 3 (c.avgSentiment - p.avgSentiment) - (c.avgSentiment - p.avgSentiment)|
        ≤ 1 / (2 * (10 : ℚ) ^ (3:ℕ)) := abs_roundTo_sub 3 _
      _ ≤ 1/1000 := by norm_num
  · intro c p h0 hc
    show roundTo 1 (max (-100) (min 1000 (if 0 < p.messageCount then _ else
      if 0 < c.messageCount then (100:ℚ) else 0))) = 100
    rw [if_neg (by omega), if_pos hc]
    have : max (-100 : ℚ) (min 1000 100) = 100 := by norm_num
    rw [this]
    exact roundTo_exact 1 100 1000 (by norm_num)
  · intro c p h0 hc
    show roundTo 1 (max (-100) (min 1000 (if 0 < p.threadEngagement then _ else
      if 0 < c.threadEngagement then (100:ℚ) else 0))) = 100
    rw [if_neg (by rw [h0]; exact lt_irrefl 0), if_pos hc]
    have : max (-100 : ℚ) (min 1000 100) = 100 := by norm_num
    rw [this]
    exact roundTo_exact 1 100 1000 (by norm_num)
  · intro c p
    refine ⟨?_, ?_, ?_, ?_, ?_⟩
    · show |roundTo 3 (max (-2) (min 2 (c.avgSentiment - p.avgSentiment)))| ≤ 2
      rw [abs_le]
      exact ⟨rat_le_roundTo_clamp 3 _ _ _ (-2) (by norm_num),
        roundTo_clamp_le_rat 3 _ _ _ 2 (by norm_num) (by norm_num)⟩
    · show (-100 : ℚ) ≤ roundTo 1 (max (-100) (min 1000 (if 0 < p.messageCount then
          ((c.messageCount : ℚ) - (p.messageCount : ℚ)) / (p.messageCount : ℚ) * 100
        else if 0 < c.messageCount then (100:ℚ) else 0)))
      exact rat_le_roundTo_clamp 1 _ _ _ (-100) (by norm_num)
    · show roundTo 1 (max (-100) (min 1000 (if 0 < p.messageCount then
          ((c.messageCount : ℚ) - (p.messageCount : ℚ)) / (p.messageCount : ℚ) * 100
        else if 0 < c.messageCount then (100:ℚ) else 0))) ≤ 1000
      exact roundTo_clamp_le_rat 1 _ _ _ 1000 (by norm_num) (by norm_num)
    · show (-100 : ℚ) ≤ roundTo 1 (max (-100) (min 1000 (if 0 < p.threadEngagement then
          (c.threadEngagement - p.threadEngagement) / p.threadEngagement * 100
        else if 0 < c.threadEngagement then (100:ℚ) else 0)))
      exact rat_le_roundTo_clamp 1 _ _ _ (-100) (by norm_num)
    · show roundTo 1 (max (-100) (min 1000 (if 0 < p.threadEngagement then
          (c.threadEngagement - p.threadEngagement) / p.threadEngagement * 100
        else if 0 < c.threadEngagement then (100:ℚ) else 0))) ≤ 1000
      exact roundTo_clamp_le_rat 1 _ _ _ 1000 (by norm_num) (by norm_num)
  · intro c p hp hc
    show roundTo 3 (max (-2) (min 2 (c.avgSentiment - p.avgSentiment))) = 3/10
    rw [hp, hc]
    have h1 : ((1:ℚ)/2 - 1/5) = 3/10 := by norm_num
    rw [h1]
    have h2 : max (-2 : ℚ) (min 2 (3/10)) = 3/10 := by norm_num
    rw [h2]
    exact roundTo_exact 3 (3/10) 300 (by norm_num)

/-- C9 witness: the example clause applied to concrete metrics with
previous average 0.2 and current average 0.5. -/
theorem calculateTrendAnalysis_spec_witness :
    (calculateTrendAnalysis
      { channelId := "C1", channelName := "general", avgSentiment := 1/2,
        messageCount := 10, activeUsers := 3, threadEngagement := 20,
        reactionEngagement := 1,
        sentimentDistribution := { positive := 5, neutral := 3, negative := 2 },
        riskFactors := [] }
      (some
        { channelId := "C1", channelName := "general", avgSentiment := 1/5,
          messageCount := 8, activeUsers := 3, threadEngagement := 25,
          reactionEngagement := 1,
          sentimentDistribution := { positive := 4, neutral := 2, negative := 2 },
          riskFactors := [] })).sentimentChange = 3/10 :=
  calculateTrendAnalysis_spec.2.2.2.2.2 _ _ rfl rfl

/-! ## C10 — reply-record sanitisation -/

/-- C10 counterexample: a parsed record whose `sentimentScore` field is
absent.  `Math.min(1, undefined)` is NaN, so the emitted score is NaN —
not a value clamped into `[-1, 1]` — even though the claim asserts the
clamp for every parsed record. -/
theorem parseSentimentResponse_missing_score_counterexample :
    ((ClaudeAPIClient.parseSentimentResponse
        (ReplyParse.records
          [{ messageId := "m1", sentimentScore := none,
             confidence := some (JSNum.fin (9/10)) }])
        [{ id := "m1", text := "hi", username := "ann", timestamp := 0 }]).map
      SentimentAnalysisResult.sentimentScore) = [JSNum.nan]
    ∧ ¬ JSNum.nan.inRange (-1) 1 := by
  constructor
  · simp [ClaudeAPIClient.parseSentimentResponse, ClaudeAPIClient.sanitizeParsedRecord,
      toNumber, JSNum.jsMin, JSNum.jsMax]
  · simp [JSNum.inRange]

/-- A NaN-free value clamped by `Math.max(lo, Math.min(hi, x))` lands in
`[lo, hi]`. -/
lemma jsClamp_inRange (lo hi : ℚ) (hlohi : lo ≤ hi) (x : JSNum) (h : x.isNaN = false) :
    ((JSNum.fin lo).jsMax ((JSNum.fin hi).jsMin x)).inRange lo hi := by
  cases x with
  | nan => simp [JSNum.isNaN] at h
  | posInf =>
      show (JSNum.fin (max lo hi)).inRange lo hi
      simp only [JSNum.inRange, max_eq_right hlohi]
      exact ⟨hlohi, le_refl hi⟩
  | negInf =>
      show (JSNum.fin lo).inRange lo hi
      simp only [JSNum.inRange]
      exact ⟨le_refl lo, hlohi⟩
  | fin q =>
      show (JSNum.fin (max lo (min hi q))).inRange lo hi
      simp only [JSNum.inRange]
      exact ⟨le_max_left _ _, max_le hlohi (min_le_left _ _)⟩

/-- `x || 0.5` never yields NaN. -/
lemma jsOrDefault_half_not_nan (c : Option JSNum) :
    (jsOrDefault c (JSNum.fin (1/2))).isNaN = false := by
  cases c with
  | none => rfl
  | some v =>
      cases v <;> simp [jsOrDefault, JSNum.truthy, JSNum.isNaN] <;>
        split_ifs <;> simp [JSNum.isNaN]

/-- C10 (amended): for every parsed reply record, the emitted result has
its confidence clamped into `[0, 1]`, with an absent or exactly-zero
confidence replaced by 0.5; the emitted score is clamped into `[-1, 1]`
whenever the record's `sentimentScore` field is present and not NaN, but
a record lacking the field is emitted with score NaN (the claim's
unconditional clamp fails there). -/
theorem parseSentimentResponse_record_sanitisation (r : ParsedRecord)
    (msgs : List BatchMsg) :
    ∃ out : SentimentAnalysisResult,
      ClaudeAPIClient.parseSentimentResponse (ReplyParse.records [r]) msgs = [out]
      ∧ (∀ x : JSNum, r.sentimentScore = some x → x.isNaN = false →
          out.sentimentScore.inRange (-1) 1)
      ∧ (r.sentimentScore = none → out.sentimentScore = JSNum.nan)
      ∧ out.confidence.inRange 0 1
      ∧ ((r.confidence = none ∨ r.confidence = some (JSNum.fin 0)) →
          out.confidence = JSNum.fin (1/2)) := by
  refine ⟨ClaudeAPIClient.sanitizeParsedRecord r, rfl, ?_, ?_, ?_, ?_⟩
  · intro x hx hnan
    show ((JSNum.fin (-1)).jsMax ((JSNum.fin 1).jsMin (toNumber r.sentimentScore))).inRange
      (-1) 1
    rw [hx]
    exact jsClamp_inRange (-1) 1 (by norm_num) x hnan
  · intro hx
    show (JSNum.fin (-1)).jsMax ((JSNum.fin 1).jsMin (toNumber r.sentimentScore)) = JSNum.nan
    rw [hx]
    rfl
  · show ((JSNum.fin 0).jsMax ((JSNum.fin 1).jsMin
      (jsOrDefault r.confidence (JSNum.fin (1/2))))).inRange 0 1
    exact jsClamp_inRange 0 1 (by norm_num) _ (jsOrDefault_half_not_nan r.confidence)
  · intro hc
    show (JSNum.fin 0).jsMax ((JSNum.fin 1).jsMin
      (jsOrDefault r.confidence (JSNum.fin (1/2)))) = JSNum.fin (1/2)
    rcases hc with hc | hc <;> rw [hc] <;>
      simp [jsOrDefault, JSNum.truthy, JSNum.jsMin, JSNum.jsMax] <;> norm_num

/-- C10 witness: the amended theorem applied to a concrete record with an
out-of-range score 1.7 and zero confidence; the emitted score is in
range and the confidence is 0.5. -/
theorem parseSentimentResponse_record_sanitisation_witness :
    ∃ out : SentimentAnalysisResult,
      ClaudeAPIClient.parseSentimentResponse
        (ReplyParse.records
          [{ messageId := "m2", sentimentScore := some (JSNum.fin (17/10)),
             confidence := some (JSNum.fin 0) }])
        [] = [out]
      ∧ out.sentimentScore.inRange (-1) 1
      ∧ out.confidence = JSNum.fin (1/2) := by
  obtain ⟨out, h1, h2, _, _, h5⟩ := parseSentimentResponse_record_sanitisation
    { messageId := "m2", sentimentScore := some (JSNum.fin (17/10)),
      confidence := some (JSNum.fin 0) } []
  exact ⟨out, h1, h2 (JSNum.fin (17/10)) rfl rfl, h5 (Or.inr rfl)⟩

/-! ## C4 — circuit breaker state machine -/

/-- C4: with threshold 3, the breaker obeys the claimed state machine:
three consecutive failing calls from any closed state leave it open; a
call while open inside the cooldown returns the fallback without
invoking the classifier and leaves the breaker untouched; the first call
past the cooldown invokes the classifier (half-open probe) — success
closes the breaker and resets the counter, failure re-opens it; the same
holds from an explicit half-open state; and every reachable non-closed
state carries at least 3 recorded failures, so the re-opening clause
applies to every reachable half-open state. -/
theorem circuitBreaker_state_machine :
    (∀ (cb : CircuitBreakerState) (t1 t2 t3 : ℤ), cb.state = CBStatus.closed →
      ((generateAIInsights ((generateAIInsights
        ((generateAIInsights cb t1 false).breaker) t2 false).breaker) t3 false).breaker).state
        = CBStatus.opened)
    ∧ (∀ (cb : CircuitBreakerState) (t : ℤ) (s : Bool), cb.state = CBStatus.opened →
        t - cb.lastFailureTime < CIRCUIT_BREAKER_TIMEOUT →
        generateAIInsights cb t s =
          { breaker := cb, invokedClassifier := false, usedFallback := true })
    ∧ (∀ (cb : CircuitBreakerState) (t : ℤ) (s : Bool), cb.state = CBStatus.opened →
        CIRCUIT_BREAKER_TIMEOUT ≤ t - cb.lastFailureTime →
        (generateAIInsights cb t s).invokedClassifier = true
        ∧ (s = true → (generateAIInsights cb t s).breaker.state = CBStatus.closed
            ∧ (generateAIInsights cb t s).breaker.failures = 0)
        ∧ (s = false → 2 ≤ cb.failures →
            (generateAIInsights cb t s).breaker.state = CBStatus.opened))
    ∧ (∀ (cb : CircuitBreakerState) (t : ℤ), cb.state = CBStatus.halfOpen →
        (generateAIInsights cb t true).breaker.state = CBStatus.closed
        ∧ (generateAIInsights cb t true).breaker.failures = 0)
    ∧ (∀ (cb : CircuitBreakerState) (t : ℤ), cb.state = CBStatus.halfOpen →
        2 ≤ cb.failures →
        (generateAIInsights cb t false).breaker.state = CBStatus.opened)
    ∧ (∀ cb : CircuitBreakerState, CBReachable cb → cb.state ≠ CBStatus.closed →
        CIRCUIT_BREAKER_THRESHOLD ≤ cb.failures) := by
  have hfail_closed : ∀ (cb : CircuitBreakerState) (t : ℤ), cb.state = CBStatus.closed →
      (generateAIInsights cb t false).breaker.failures = cb.failures + 1
      ∧ ((generateAIInsights cb t false).breaker.state = CBStatus.closed
          ∨ (generateAIInsights cb t false).breaker.state = CBStatus.opened)
      ∧ (3 ≤ cb.failures + 1 →
          (generateAIInsights cb t false).breaker.state = CBStatus.opened)
      ∧ ((generateAIInsights cb t false).breaker.state = CBStatus.opened →
          3 ≤ cb.failures + 1) := by
    intro cb t hc
    have hgate : ¬ (cb.state = CBStatus.opened ∧
        t - cb.lastFailureTime < CIRCUIT_BREAKER_TIMEOUT) := by
      rw [hc]; rintro ⟨h, -⟩; cases h
    have hop : ¬ cb.state = CBStatus.opened := by rw [hc]; intro h; cases h
    by_cases h3 : CIRCUIT_BREAKER_THRESHOLD ≤ cb.failures + 1
    · have heq : generateAIInsights cb t false =
          { breaker :=
                { failures := cb.failures + 1, lastFailureTime := t,
                  state := CBStatus.opened },
            invokedClassifier := true, usedFallback := true } := by
        unfold generateAIInsights
        rw [if_neg hgate]
        simp [hop, h3]
      rw [heq]
      exact ⟨rfl, Or.inr rfl, fun _ => rfl, fun _ => h3⟩
    · have heq : generateAIInsights cb t false =
          { breaker :=
                { failures := cb.failures + 1, lastFailureTime := t,
                  state := cb.state },
            invokedClassifier := true, usedFallback := true } := by
        unfold generateAIInsights
        rw [if_neg hgate]
        simp [hop, h3]
      rw [heq]
      refine ⟨rfl, Or.inl hc, fun hcontra => absurd hcontra h3, fun habs => ?_⟩
      rw [hc] at habs
      cases habs
  have hfail_opened : ∀ (cb : CircuitBreakerState) (t : ℤ), cb.state = CBStatus.opened →
      2 ≤ cb.failures →
      (generateAIInsights cb t false).breaker.state = CBStatus.opened
      ∧ 2 ≤ (generateAIInsights cb t false).breaker.failures := by
    intro cb t ho h2
    by_cases hcool : t - cb.lastFailureTime < CIRCUIT_BREAKER_TIMEOUT
    · have heq : generateAIInsights cb t false =
          { breaker := cb, invokedClassifier := false, usedFallback := true } := by
        unfold generateAIInsights
        rw [if_pos ⟨ho, hcool⟩]
      rw [heq]
      exact ⟨ho, h2⟩
    · have h3 : CIRCUIT_BREAKER_THRESHOLD ≤ cb.failures + 1 := by
        show 3 ≤ cb.failures + 1; omega
      have heq : generateAIInsights cb t false =
          { breaker :=
                { failures := cb.failures + 1, lastFailureTime := t,
                  state := CBStatus.opened },
            invokedClassifier := true, usedFallback := true } := by
        unfold generateAIInsights
        rw [if_neg (fun hx => hcool hx.2)]
        simp [ho, h3]
      rw [heq]
      exact ⟨rfl, by show 2 ≤ cb.failures + 1; omega⟩
  refine ⟨?_, ?_, ?_, ?_, ?_, ?_⟩
  · intro cb t1 t2 t3 hc
    obtain ⟨hf1, hs1, hop1, hrev1⟩ := hfail_closed cb t1 hc
    rcases hs1 with hs1 | hs1
    · obtain ⟨hf2, hs2, hop2, hrev2⟩ := hfail_closed _ t2 hs1
      rcases hs2 with hs2 | hs2
      · exact (hfail_closed _ t3 hs2).2.2.1 (by omega)
      · exact (hfail_opened _ t3 hs2 (by have := hrev2 hs2; omega)).1
    · have h1 : 2 ≤ (generateAIInsights cb t1 false).breaker.failures := by
        have := hrev1 hs1; omega
      obtain ⟨hs2, h2⟩ := hfail_opened _ t2 hs1 h1
      exact (hfail_opened _ t3 hs2 h2).1
  · intro cb t s ho hcool
    unfold generateAIInsights
    rw [if_pos ⟨ho, hcool⟩]
  · intro cb t s ho hcool
    have heqT : generateAIInsights cb t true =
        { breaker := { cb with state := CBStatus.closed, failures := 0 },
          invokedClassifier := true, usedFallback := false } := by
      unfold generateAIInsights
      rw [if_neg (fun hx => absurd hcool (not_le.mpr hx.2))]
      simp [ho]
    have h3 : CIRCUIT_BREAKER_THRESHOLD ≤ cb.failures + 1 → True := fun _ => trivial
    refine ⟨?_, ?_, ?_⟩
    · cases s with
      | true => rw [heqT]
      | false =>
          by_cases h3 : CIRCUIT_BREAKER_THRESHOLD ≤ cb.failures + 1 <;>
            · unfold generateAIInsights
              rw [if_neg (fun hx => absurd hcool (not_le.mpr hx.2))]
              simp [ho, h3]
    · intro hs
      subst hs
      rw [heqT]
      exact ⟨rfl, rfl⟩
    · intro hs h2
      subst hs
      have h3 : CIRCUIT_BREAKER_THRESHOLD ≤ cb.failures + 1 := by
        show 3 ≤ cb.failures + 1; omega
      have heq : generateAIInsights cb t false =
          { breaker :=
                { failures := cb.failures + 1, lastFailureTime := t,
                  state := CBStatus.opened },
            invokedClassifier := true, usedFallback := true } := by
        unfold generateAIInsights
        rw [if_neg (fun hx => absurd hcool (not_le.mpr hx.2))]
        simp [ho, h3]
      rw [heq]
  · intro cb t hh
    have hgate : ¬ (cb.state = CBStatus.opened ∧
        t - cb.lastFailureTime < CIRCUIT_BREAKER_TIMEOUT) := by
      rw [hh]; rintro ⟨h, -⟩; cases h
    have hop : ¬ cb.state = CBStatus.opened := by rw [hh]; intro h; cases h
    have heq : generateAIInsights cb t true =
        { breaker := { cb with state := CBStatus.closed, failures := 0 },
          invokedClassifier := true, usedFallback := false } := by
      unfold generateAIInsights
      rw [if_neg hgate]
      simp [hop, hh]
    rw [heq]
    exact ⟨rfl, rfl⟩
  · intro cb t hh h2
    have hgate : ¬ (cb.state = CBStatus.opened ∧
        t - cb.lastFailureTime < CIRCUIT_BREAKER_TIMEOUT) := by
      rw [hh]; rintro ⟨h, -⟩; cases h
    have hop : ¬ cb.state = CBStatus.opened := by rw [hh]; intro h; cases h
    have h3 : CIRCUIT_BREAKER_THRESHOLD ≤ cb.failures + 1 := by
      show 3 ≤ cb.failures + 1; omega
    have heq : generateAIInsights cb t false =
        { breaker :=
              { failures := cb.failures + 1, lastFailureTime := t,
                state := CBStatus.opened },
          invokedClassifier := true, usedFallback := true } := by
      unfold generateAIInsights
      rw [if_neg hgate]
      simp [hop, h3]
    rw [heq]
  · intro cb hreach
    induction hreach with
    | init => intro h; simp at h
    | step cb0 t s hr ih =>
        intro hne
        by_cases hgate : cb0.state = CBStatus.opened ∧
            t - cb0.lastFailureTime < CIRCUIT_BREAKER_TIMEOUT
        · have heq : generateAIInsights cb0 t s =
              { breaker := cb0, invokedClassifier := false, usedFallback := true } := by
            unfold generateAIInsights
            rw [if_pos hgate]
          rw [heq] at hne ⊢
          exact ih hne
        · by_cases hop : cb0.state = CBStatus.opened
          · have hfail0 : CIRCUIT_BREAKER_THRESHOLD ≤ cb0.failures :=
              ih (by rw [hop]; intro h; cases h)
            cases s with
            | true =>
                have heq : generateAIInsights cb0 t true =
                    { breaker := { cb0 with state := CBStatus.closed, failures := 0 },
                      invokedClassifier := true, usedFallback := false } := by
                  unfold generateAIInsights
                  rw [if_neg hgate]
                  simp [hop]
                rw [heq] at hne
                exact absurd rfl hne
            | false =>
                have h3 : CIRCUIT_BREAKER_THRESHOLD ≤ cb0.failures + 1 := by
                  have : (3:ℕ) ≤ cb0.failures := hfail0
                  show 3 ≤ cb0.failures + 1
                  omega
                have heq : generateAIInsights cb0 t false =
                    { breaker :=
                          { failures := cb0.failures + 1, lastFailureTime := t,
                            state := CBStatus.opened },
                      invokedClassifier := true, usedFallback := true } := by
                  unfold generateAIInsights
                  rw [if_neg hgate]
                  simp [hop, h3]
                rw [heq]
                exact h3
          · cases s with
            | true =>
                by_cases hho : cb0.state = CBStatus.halfOpen
                · have heq : generateAIInsights cb0 t true =
                      { breaker := { cb0 with state := CBStatus.closed, failures := 0 },
                        invokedClassifier := true, usedFallback := false } := by
                    unfold generateAIInsights
                    rw [if_neg hgate]
                    simp [hop, hho]
                  rw [heq] at hne
                  exact absurd rfl hne
                · have heq : generateAIInsights cb0 t true =
                      { breaker := cb0, invokedClassifier := true,
                        usedFallback := false } := by
                    unfold generateAIInsights
                    rw [if_neg hgate]
                    simp [hop, hho]
                  rw [heq] at hne ⊢
                  exact ih hne
            | false =>
                by_cases h3 : CIRCUIT_BREAKER_THRESHOLD ≤ cb0.failures + 1
                · have heq : generateAIInsights cb0 t false =
                      { breaker :=
                            { failures := cb0.failures + 1, lastFailureTime := t,
                              state := CBStatus.opened },
                        invokedClassifier := true, usedFallback := true } := by
                    unfold generateAIInsights
                    rw [if_neg hgate]
                    simp [hop, h3]
                  rw [heq]
                  exact h3
                · have heq : generateAIInsights cb0 t false =
                      { breaker :=
                            { failures := cb0.failures + 1, lastFailureTime := t,
                              state := cb0.state },
                        invokedClassifier := true, usedFallback := true } := by
                    unfold generateAIInsights
                    rw [if_neg hgate]
                    simp [hop, h3]
                  rw [heq] at hne ⊢
                  have hprev : CIRCUIT_BREAKER_THRESHOLD ≤ cb0.failures := ih hne
                  have : (3:ℕ) ≤ cb0.failures := hprev
                  show 3 ≤ cb0.failures + 1
                  omega

/-- C4 witness: from the initial closed breaker, three failing calls at
times 0, 1, 2 leave the breaker open; a fourth call at time 3 (inside
the 60s cooldown) short-circuits without invoking the classifier; and a
successful call at time 70000 (past the cooldown) closes the breaker
again with the counter reset. -/
theorem circuitBreaker_state_machine_witness :
    (((generateAIInsights ((generateAIInsights ((generateAIInsights
        { failures := 0, lastFailureTime := 0, state := CBStatus.closed }
        0 false).breaker) 1 false).breaker) 2 false).breaker).state = CBStatus.opened)
    ∧ (generateAIInsights { failures := 3, lastFailureTime := 2, state := CBStatus.opened }
        3 false =
        { breaker := { failures := 3, lastFailureTime := 2, state := CBStatus.opened },
          invokedClassifier := false, usedFallback := true })
    ∧ ((generateAIInsights { failures := 3, lastFailureTime := 2, state := CBStatus.opened }
        70000 true).breaker.state = CBStatus.closed
      ∧ (generateAIInsights { failures := 3, lastFailureTime := 2, state := CBStatus.opened }
        70000 true).breaker.failures = 0) := by
  refine ⟨circuitBreaker_state_machine.1 _ 0 1 2 rfl,
    circuitBreaker_state_machine.2.1 _ 3 false rfl (by norm_num [CIRCUIT_BREAKER_TIMEOUT]),
    ?_⟩
  have h := circuitBreaker_state_machine.2.2.1
    { failures := 3, lastFailureTime := 2, state := CBStatus.opened }
    70000 true rfl (by norm_num [CIRCUIT_BREAKER_TIMEOUT])
  exact h.2.1 rfl

/-! ## C8 — WeeklyInsight upsert idempotence -/

/-- In a table with pairwise-distinct ids, the id determines the row. -/
lemma nodup_id_inj {l : List StoredInsight}
    (hnd : (l.map StoredInsight._id).Nodup) {a b : StoredInsight}
    (ha : a ∈ l) (hb : b ∈ l) (hid : a._id = b._id) : a = b := by
  induction l with
  | nil => cases ha
  | cons r rest ih =>
      rw [List.map_cons, List.nodup_cons] at hnd
      rcases List.mem_cons.mp ha with rfl | ha' <;>
        rcases List.mem_cons.mp hb with rfl | hb'
      · rfl
      · exact absurd (hid ▸ List.mem_map_of_mem StoredInsight._id hb') hnd.1
      · exact absurd (hid ▸ List.mem_map_of_mem StoredInsight._id ha') hnd.1
      · exact ih hnd.2 ha' hb'

/-- A list of length at most one has at most one member. -/
lemma mem_eq_of_length_le_one {α : Type} {l : List α} (h : l.length ≤ 1)
    {a b : α} (ha : a ∈ l) (hb : b ∈ l) : a = b := by
  match l with
  | [] => cases ha
  | [x] =>
      rw [List.mem_singleton] at ha hb
      rw [ha, hb]
  | x :: y :: rest => simp at h

/-- Patching the unique row matching `p` by id leaves exactly the
replacement as the matching set. -/
lemma patch_filter {p : StoredInsight → Bool} {l : List StoredInsight}
    (hnd : (l.map StoredInsight._id).Nodup) {ex new : StoredInsight}
    (hex : ex ∈ l) (huniq : ∀ r ∈ l, p r = true → r = ex)
    (hid : new._id = ex._id) (hnew : p new = true) :
    (l.map fun r => if r._id = ex._id then new else r).filter p = [new] := by
  induction l with
  | nil => cases hex
  | cons r rest ih =>
      rw [List.map_cons, List.nodup_cons] at hnd
      by_cases hre : r = ex
      · subst hre
        rw [List.map_cons, if_pos rfl, List.filter_cons, if_pos hnew]
        have hrest : (rest.map fun s => if s._id = r._id then new else s).filter p = [] := by
          rw [List.filter_eq_nil_iff]
          intro y hy
          obtain ⟨s, hs, hfs⟩ := List.mem_map.mp hy
          have hsid : ¬ s._id = r._id := by
            intro hcontra
            exact hnd.1 (hcontra ▸ List.mem_map_of_mem StoredInsight._id hs)
          rw [if_neg hsid] at hfs
          intro hp
          have hyr := huniq y (List.mem_cons_of_mem r (hfs ▸ hs)) hp
          exact hsid (by rw [hfs, hyr])
        rw [hrest]
      · have hexr : ex ∈ rest := by
          rcases List.mem_cons.mp hex with h | h
          · exact absurd h.symm hre
          · exact h
        have hrid : ¬ r._id = ex._id := by
          intro hcontra
          apply hnd.1
          rw [hcontra]
          exact List.mem_map_of_mem StoredInsight._id hexr
        rw [List.map_cons, if_neg hrid, List.filter_cons]
        have hpr : ¬ p r = true := by
          intro hp
          exact hre (huniq r (List.mem_cons_self r rest) hp)
        rw [if_neg hpr]
        exact ih hnd.2 hexr (fun s hs hp => huniq s (List.mem_cons_of_mem r hs) hp)

/-- One `storeWeeklyInsight` call on a well-formed table with at most one
row for the key leaves a well-formed table whose matching set is exactly
the one freshly written row. -/
lemma storeWeeklyInsight_filter (db : InsightDB) (a : InsightArgs) (t : ℤ)
    (hwf : db.WF) (hle : insightKeyCount db a.weekStart a.slackChannelId ≤ 1) :
    ((storeWeeklyInsight db a t).1).WF
    ∧ ((storeWeeklyInsight db a t).1.records.filter
        (insightKeyMatches a.weekStart a.slackChannelId))
      = [{ _id := (storeWeeklyInsight db a t).2, payload := a, generatedAt := t }] := by
  obtain ⟨hnd, hbound⟩ := hwf
  have hnewkey : insightKeyMatches a.weekStart a.slackChannelId
      { _id := (storeWeeklyInsight db a t).2, payload := a, generatedAt := t } = true := by
    simp [insightKeyMatches]
  unfold storeWeeklyInsight at hnewkey ⊢
  cases hfind : db.records.find? (insightKeyMatches a.weekStart a.slackChannelId) with
  | none =>
      have hnone := List.find?_eq_none.mp hfind
      simp only [hfind]
      constructor
      · constructor
        · rw [List.map_append, List.map_singleton]
          rw [List.nodup_append]
          refine ⟨hnd, List.nodup_singleton _, ?_⟩
          intro x hx
          rw [List.mem_singleton]
          intro hxeq
          subst hxeq
          obtain ⟨r, hr, hrid⟩ := List.mem_map.mp hx
          exact absurd hrid (Nat.ne_of_lt (hbound r hr))
        · intro r hr
          rcases List.mem_append.mp hr with h | h
          · exact Nat.lt_succ_of_lt (hbound r h)
          · rw [List.mem_singleton] at h
            subst h
            exact Nat.lt_succ_self _
      · rw [List.filter_append]
        have h1 : db.records.filter (insightKeyMatches a.weekStart a.slackChannelId) = [] := by
          rw [List.filter_eq_nil_iff]
          intro r hr
          exact fun hp => (hnone r hr) hp
        rw [h1, List.filter_cons]
        simp only [hfind] at hnewkey
        rw [if_pos hnewkey]
        rfl
  | some ex =>
      have hp : insightKeyMatches a.weekStart a.slackChannelId ex = true :=
        List.find?_some hfind
      have hmem : ex ∈ db.records := List.mem_of_find?_eq_some hfind
      have huniq : ∀ r ∈ db.records,
          insightKeyMatches a.weekStart a.slackChannelId r = true → r = ex := by
        intro r hr hpr
        have hrf : r ∈ db.records.filter (insightKeyMatches a.weekStart a.slackChannelId) :=
          List.mem_filter.mpr ⟨hr, hpr⟩
        have hexf : ex ∈ db.records.filter (insightKeyMatches a.weekStart a.slackChannelId) :=
          List.mem_filter.mpr ⟨hmem, hp⟩
        exact mem_eq_of_length_le_one hle hrf hexf
      simp only [hfind]
      have hmapid : (db.records.map fun r =>
          if r._id = ex._id then { _id := ex._id, payload := a, generatedAt := t } else r).map
            StoredInsight._id = db.records.map StoredInsight._id := by
        rw [List.map_map]
        apply List.map_congr_left
        intro r hr
        by_cases hcase : r._id = ex._id
        · simp [hcase]
        · simp [hcase]
      constructor
      · constructor
        · rw [hmapid]; exact hnd
        · intro r hr
          obtain ⟨s, hs, hfs⟩ := List.mem_map.mp hr
          by_cases hcase : s._id = ex._id
          · rw [if_pos hcase] at hfs
            subst hfs
            exact hbound ex hmem
          · rw [if_neg hcase] at hfs
            subst hfs
            exact hbound s hs
      · simp only [hfind] at hnewkey
        exact patch_filter hnd hmem huniq rfl hnewkey

/-- C8: two `storeWeeklyInsight` runs for the same `(channelId,
weekStart)` key leave exactly one WeeklyInsight row for that key, and the
surviving row carries the second run's payload — the second run
overwrites the first rather than creating a duplicate. -/
theorem storeWeeklyInsight_idempotent_upsert (db : InsightDB) (a1 a2 : InsightArgs)
    (t1 t2 w : ℤ) (c : String)
    (hwf : db.WF) (hle : insightKeyCount db w c ≤ 1)
    (h1w : a1.weekStart = w) (h1c : a1.slackChannelId = c)
    (h2w : a2.weekStart = w) (h2c : a2.slackChannelId = c) :
    insightKeyCount ((storeWeeklyInsight ((storeWeeklyInsight db a1 t1).1) a2 t2).1) w c = 1
    ∧ ∀ r ∈ ((storeWeeklyInsight ((storeWeeklyInsight db a1 t1).1) a2 t2).1).records,
        insightKeyMatches w c r = true → r.payload = a2 ∧ r.generatedAt = t2 := by
  have hstep1 := storeWeeklyInsight_filter db a1 t1 hwf (by rw [h1w, h1c]; exact hle)
  have hcount1 : insightKeyCount ((storeWeeklyInsight db a1 t1).1) w c = 1 := by
    unfold insightKeyCount
    rw [← h1w, ← h1c, hstep1.2]
    rfl
  have hstep2 := storeWeeklyInsight_filter ((storeWeeklyInsight db a1 t1).1) a2 t2 hstep1.1
    (by rw [h2w, h2c, hcount1])
  constructor
  · unfold insightKeyCount
    rw [← h2w, ← h2c, hstep2.2]
    rfl
  · intro r hr hkey
    have hrf : r ∈ ((storeWeeklyInsight ((storeWeeklyInsight db a1 t1).1) a2 t2).1).records.filter
        (insightKeyMatches a2.weekStart a2.slackChannelId) := by
      rw [h2w, h2c]
      exact List.mem_filter.mpr ⟨hr, hkey⟩
    rw [hstep2.2, List.mem_singleton] at hrf
    rw [hrf]
    exact ⟨rfl, rfl⟩

/-! ## C2 — classifier client total fallback behaviour -/

/-- `chunkList` partitions: flattening the chunks restores the list. -/
lemma chunkList_flatten {α : Type} (n : ℕ) (l : List α) :
    (chunkList n l).flatten = l := by
  induction n, l using chunkList.induct with
  | case1 n => simp [chunkList]
  | case2 l => simp [chunkList]
  | case3 n x xs ih =>
      rw [chunkList, List.flatten_cons, ih, List.take_append_drop]

/-- A short non-empty list forms a single chunk. -/
lemma chunkList_small {α : Type} {n : ℕ} {l : List α} (hn : 0 < n) (hne : l ≠ [])
    (hlen : l.length ≤ n) : chunkList n l = [l] := by
  match n, l with
  | _, [] => exact absurd rfl hne
  | 0, l => exact absurd hn (lt_irrefl 0)
  | n+1, x :: xs =>
      rw [chunkList]
      have htake : (x :: xs).take (n+1) = x :: xs := List.take_of_length_le hlen
      have hdrop : (x :: xs).drop (n+1) = [] := List.drop_eq_nil_of_le hlen
      rw [htake, hdrop]
      have h0 : chunkList (n+1) ([] : List α) = [] := by simp [chunkList]
      rw [h0]

/-- Every attempt of a call failing means no attempt yields a reply. -/
lemma firstReply_none (l : List (Option ReplyParse)) (h : ∀ a ∈ l, a = none) :
    ClaudeAPIClient.firstReply l = none := by
  induction l with
  | nil => rfl
  | cons a rest ih =>
      cases a with
      | some p => exact absurd (h _ (List.mem_cons_self _ _)) (by simp)
      | none =>
          show ClaudeAPIClient.firstReply rest = none
          exact ih fun x hx => h x (List.mem_cons_of_mem _ hx)

/-- A healthy call whose every attempt fails exhausts its retries and
throws. -/
lemma processSingleBatch_allfail (o : ClaudeAPIClient.SubBatchOutcome)
    (msgs : List BatchMsg) (hh : o.healthy = true)
    (ha : ∀ a ∈ o.attempts, a = none) :
    ClaudeAPIClient.processSingleBatch o msgs =
      Except.error "Claude API failed after 3 attempts" := by
  unfold ClaudeAPIClient.processSingleBatch
  rw [hh]
  rw [if_neg (by simp)]
  rw [firstReply_none _ fun a haa => ha a (List.mem_of_mem_take haa)]

/-- When every sub-batch call exhausts its retries, the sub-batch loop
emits exactly one neutral fallback per input message. -/
lemma analyzeGo_allfail (oracle : ℕ → ClaudeAPIClient.SubBatchOutcome)
    (hfail : ∀ i, (oracle i).healthy = true ∧ ∀ a ∈ (oracle i).attempts, a = none)
    (i : ℕ) (chunks : List (List BatchMsg)) :
    ClaudeAPIClient.analyzeGo oracle i chunks =
      chunks.flatten.map
        (ClaudeAPIClient.batchFallback "Claude API failed after 3 attempts") := by
  induction chunks generalizing i with
  | nil => rfl
  | cons sub rest ih =>
      show (match ClaudeAPIClient.processSingleBatch (oracle i) sub with
        | Except.ok rs => rs
        | Except.error e => sub.map (ClaudeAPIClient.batchFallback e))
          ++ ClaudeAPIClient.analyzeGo oracle (i+1) rest = _
      rw [processSingleBatch_allfail _ _ (hfail i).1 (hfail i).2, ih (i+1),
        List.flatten_cons, List.map_append]

/-- When every sub-batch call exhausts its retries,
`analyzeSentimentBatch` returns exactly one neutral fallback per input
message, in order. -/
lemma analyzeSentimentBatch_allfail (oracle : ℕ → ClaudeAPIClient.SubBatchOutcome)
    (messages : List BatchMsg)
    (hfail : ∀ i, (oracle i).healthy = true ∧ ∀ a ∈ (oracle i).attempts, a = none) :
    ClaudeAPIClient.analyzeSentimentBatch oracle messages =
      messages.map (ClaudeAPIClient.batchFallback "Claude API failed after 3 attempts") := by
  unfold ClaudeAPIClient.analyzeSentimentBatch
  rw [analyzeGo_allfail oracle hfail 0, chunkList_flatten]

/-- The oracle of the C2/C1 counterexamples and witnesses: every call
parses to a single fixed record. -/
def oracleOneRecord : ℕ → ClaudeAPIClient.SubBatchOutcome := fun _ =>
  { healthy := true
    attempts := [some (ReplyParse.records
      [{ messageId := "m1", sentimentScore := some (JSNum.fin (1/2)),
         confidence := some (JSNum.fin (9/10)) }])] }

/-- C2 counterexample: a 2-message batch whose (successfully parsed)
reply holds a single record.  `analyzeSentimentBatch` returns one result
— not one per input message as claimed. -/
theorem analyzeSentimentBatch_count_counterexample :
    (ClaudeAPIClient.analyzeSentimentBatch oracleOneRecord
      [{ id := "m1", text := "hello", username := "ann", timestamp := 0 },
       { id := "m2", text := "bye", username := "bob", timestamp := 1 }]).length = 1
    ∧ (1 : ℕ) ≠ 2 := by
  constructor
  · unfold ClaudeAPIClient.analyzeSentimentBatch
    rw [chunkList_small (by decide) (by simp) (by decide)]
    rfl
  · decide

/-- One sub-batch's contribution to `analyzeSentimentBatch`: the parsed
results when its call returns, per-message neutral fallbacks when it
throws (the loop's `catch`). -/
def subBatchResult (o : ClaudeAPIClient.SubBatchOutcome) (sub : List BatchMsg) :
    List SentimentAnalysisResult :=
  match ClaudeAPIClient.processSingleBatch o sub with
  | Except.ok rs => rs
  | Except.error e => sub.map (ClaudeAPIClient.batchFallback e)

/-- The indexed list of per-sub-batch contributions. -/
def subBatchResults (oracle : ℕ → ClaudeAPIClient.SubBatchOutcome) (i : ℕ) :
    List (List BatchMsg) → List (List SentimentAnalysisResult)
  | [] => []
  | sub :: rest => subBatchResult (oracle i) sub :: subBatchResults oracle (i+1) rest

/-- The sub-batch loop concatenates the per-sub-batch contributions. -/
lemma analyzeGo_eq_subBatchResults (oracle : ℕ → ClaudeAPIClient.SubBatchOutcome) :
    ∀ (i : ℕ) (chunks : List (List BatchMsg)),
      ClaudeAPIClient.analyzeGo oracle i chunks = (subBatchResults oracle i chunks).flatten := by
  intro i chunks
  induction chunks generalizing i with
  | nil => rfl
  | cons sub rest ih =>
      show (match ClaudeAPIClient.processSingleBatch (oracle i) sub with
        | Except.ok rs => rs
        | Except.error e => sub.map (ClaudeAPIClient.batchFallback e))
          ++ ClaudeAPIClient.analyzeGo oracle (i+1) rest = _
      rw [ih (i+1)]
      rfl

/-- C2 (amended): `analyzeSentimentBatch` never throws — for every
oracle, including mixed runs, it is the concatenation of independent
per-sub-batch contributions over the ≤25-message chunks.  A sub-batch
whose call exhausts its retries (healthy gate passed, every attempt
failed) contributes exactly one neutral fallback per message of that
sub-batch, with the failure recorded in the reasoning; an unhealthy
sub-batch likewise contributes one neutral result per message; a
sub-batch whose reply parses to records contributes one result per
parsed record (which can differ from the sub-batch size); a reply with
no parseable JSON contributes one parse-failure fallback per message.
In particular, when every call fails, the output is exactly one neutral
fallback per input message. -/
theorem analyzeSentimentBatch_subbatch_isolation :
    (∀ (oracle : ℕ → ClaudeAPIClient.SubBatchOutcome) (messages : List BatchMsg),
      ClaudeAPIClient.analyzeSentimentBatch oracle messages =
        (subBatchResults oracle 0 (chunkList ClaudeAPIClient.maxBatchSize messages)).flatten)
    ∧ (∀ (o : ClaudeAPIClient.SubBatchOutcome) (sub : List BatchMsg),
        o.healthy = true → (∀ a ∈ o.attempts, a = none) →
        subBatchResult o sub =
          sub.map (ClaudeAPIClient.batchFallback "Claude API failed after 3 attempts"))
    ∧ (∀ (o : ClaudeAPIClient.SubBatchOutcome) (sub : List BatchMsg),
        o.healthy = false →
        subBatchResult o sub = sub.map fun m =>
          { messageId := m.id, sentimentScore := JSNum.fin 0, confidence := JSNum.fin (1/10),
            reasoning := some "Claude API unavailable - using neutral sentiment" })
    ∧ (∀ (o : ClaudeAPIClient.SubBatchOutcome) (sub : List BatchMsg)
        (rs : List ParsedRecord), o.healthy = true →
        ClaudeAPIClient.firstReply (o.attempts.take ClaudeAPIClient.maxRetries)
          = some (ReplyParse.records rs) →
        subBatchResult o sub = rs.map ClaudeAPIClient.sanitizeParsedRecord)
    ∧ (∀ (o : ClaudeAPIClient.SubBatchOutcome) (sub : List BatchMsg), o.healthy = true →
        ClaudeAPIClient.firstReply (o.attempts.take ClaudeAPIClient.maxRetries)
          = some ReplyParse.noJson →
        subBatchResult o sub = sub.map fun m =>
          { messageId := m.id, sentimentScore := JSNum.fin 0, confidence := JSNum.fin (1/10),
            reasoning := some "Failed to parse API response" })
    ∧ (∀ (e : String) (m : BatchMsg),
        ClaudeAPIClient.batchFallback e m =
          { messageId := m.id, sentimentScore := JSNum.fin 0, confidence := JSNum.fin (1/10),
            reasoning := some ("Processing failed: " ++ e) })
    ∧ (∀ (oracle : ℕ → ClaudeAPIClient.SubBatchOutcome) (messages : List BatchMsg),
        (∀ i, (oracle i).healthy = true ∧ ∀ a ∈ (oracle i).attempts, a = none) →
        ClaudeAPIClient.analyzeSentimentBatch oracle messages =
          messages.map
            (ClaudeAPIClient.batchFallback "Claude API failed after 3 attempts")) := by
  refine ⟨?_, ?_, ?_, ?_, ?_, ?_, ?_⟩
  · intro oracle messages
    exact analyzeGo_eq_subBatchResults oracle 0 _
  · intro o sub hh ha
    unfold subBatchResult
    rw [processSingleBatch_allfail o sub hh ha]
  · intro o sub hh
    unfold subBatchResult ClaudeAPIClient.processSingleBatch
    rw [if_pos hh]
  · intro o sub rs hh hfr
    unfold subBatchResult ClaudeAPIClient.processSingleBatch
    rw [hh]
    rw [if_neg (by simp)]
    rw [hfr]
    rfl
  · intro o sub hh hfr
    unfold subBatchResult ClaudeAPIClient.processSingleBatch
    rw [hh]
    rw [if_neg (by simp)]
    rw [hfr]
    rfl
  · intro e m
    rfl
  · intro oracle messages hfail
    exact analyzeSentimentBatch_allfail oracle messages hfail

/-- C2 witness: the isolation theorem applied to a concrete mixed run —
one sub-batch whose three attempts all fail yields per-message neutral
fallbacks, exactly as clause two states at this input. -/
theorem analyzeSentimentBatch_subbatch_isolation_witness :
    subBatchResult { healthy := true, attempts := List.replicate 3 none }
      [{ id := "m1", text := "hello", username := "ann", timestamp := 0 },
       { id := "m2", text := "bye", username := "bob", timestamp := 1 }] =
      [{ id := "m1", text := "hello", username := "ann", timestamp := 0 },
       { id := "m2", text := "bye", username := "bob", timestamp := 1 }].map
        (ClaudeAPIClient.batchFallback "Claude API failed after 3 attempts") :=
  analyzeSentimentBatch_subbatch_isolation.2.1 _ _ rfl
    (fun a ha => List.eq_of_mem_replicate ha)
/-- Concrete insight payload for the C8 witness (first run). -/
def insightArgsEx1 : InsightArgs :=
  { weekStart := 0, weekEnd := 604799999, slackChannelId := "C1",
    metrics :=
      { avgSentiment := 0, messageCount := 0, activeUsers := 0,
        threadEngagement := 0, reactionEngagement := 0 },
    burnoutRisk := BurnoutRisk.low, riskFactors := [],
    actionableInsights := ["review metrics"],
    trendAnalysis := { sentimentChange := 0, activityChange := 0, engagementChange := 0 },
    generatedBy := TriggerType.system }

/-- Concrete insight payload for the C8 witness (second run, same key). -/
def insightArgsEx2 : InsightArgs :=
  { weekStart := 0, weekEnd := 604799999, slackChannelId := "C1",
    metrics :=
      { avgSentiment := 1/4, messageCount := 12, activeUsers := 3,
        threadEngagement := 20, reactionEngagement := 1 },
    burnoutRisk := BurnoutRisk.medium, riskFactors := ["Mild negative sentiment trend"],
    actionableInsights := ["schedule a check-in"],
    trendAnalysis := { sentimentChange := 0, activityChange := 0, engagementChange := 0 },
    generatedBy := TriggerType.manual }

/-- C8 witness: storing twice into an empty table for week 0 of channel
C1 leaves exactly one row for that key. -/
theorem storeWeeklyInsight_idempotent_upsert_witness :
    insightKeyCount
      ((storeWeeklyInsight ((storeWeeklyInsight { records := [], nextId := 0 }
        insightArgsEx1 5).1) insightArgsEx2 9).1) 0 "C1" = 1 :=
  (storeWeeklyInsight_idempotent_upsert { records := [], nextId := 0 }
    insightArgsEx1 insightArgsEx2 5 9 0 "C1"
    ⟨List.nodup_nil, fun r hr => absurd hr (List.not_mem_nil r)⟩
    (by decide) rfl rfl rfl rfl).1

/-! ## C1 — end-to-end neutral fallback through the scoring action -/

/-- In a store with pairwise-distinct ids, the id determines the
message. -/
lemma nodup_msg_id_inj {l : List MessageDoc}
    (hnd : (l.map MessageDoc._id).Nodup) {a b : MessageDoc}
    (ha : a ∈ l) (hb : b ∈ l) (hid : a._id = b._id) : a = b := by
  induction l with
  | nil => cases ha
  | cons r rest ih =>
      rw [List.map_cons, List.nodup_cons] at hnd
      rcases List.mem_cons.mp ha with rfl | ha' <;>
        rcases List.mem_cons.mp hb with rfl | hb'
      · rfl
      · exact absurd (hid ▸ List.mem_map_of_mem MessageDoc._id hb') hnd.1
      · exact absurd (hid ▸ List.mem_map_of_mem MessageDoc._id ha') hnd.1
      · exact ih hnd.2 ha' hb'

/-- Under distinct ids, looking a member's id up with `find?` returns
that member. -/
lemma find?_msg_id (l : List MessageDoc) (hnd : (l.map MessageDoc._id).Nodup)
    (m : MessageDoc) (hm : m ∈ l) :
    (l.find? fun x => x._id = m._id) = some m := by
  induction l with
  | nil => cases hm
  | cons r rest ih =>
      rw [List.map_cons, List.nodup_cons] at hnd
      by_cases hpr : r._id = m._id
      · have hrm : r = m := by
          rcases List.mem_cons.mp hm with rfl | hm'
          · rfl
          · apply absurd _ hnd.1
            rw [hpr]
            exact List.mem_map_of_mem MessageDoc._id hm'
        rw [List.find?_cons_of_pos _ (by simp [hpr]), hrm]
      · rw [List.find?_cons_of_neg _ (by simp [hpr])]
        rcases List.mem_cons.mp hm with rfl | hm'
        · exact absurd rfl hpr
        · exact ih hnd.2 hm'

/-- The fetch page is a sublist of the store. -/
lemma getUnprocessed_sublist (store : List MessageDoc) (limit : ℕ) :
    List.Sublist (getUnprocessedMessages store limit) store :=
  (List.take_sublist _ _).trans (List.filter_sublist _)

/-- One `updateMessageSentiment` keeps the stored ids unchanged. -/
lemma update_map_id (st : List MessageDoc) (rid : String) (score : JSNum) :
    (updateMessageSentiment st rid score).map MessageDoc._id = st.map MessageDoc._id := by
  unfold updateMessageSentiment
  rw [List.map_map]
  apply List.map_congr_left
  intro m _
  by_cases hc : m._id = rid <;> simp [hc]

/-- The whole update fold keeps the stored ids unchanged. -/
lemma foldl_map_id (updates : List SentimentAnalysisResult) :
    ∀ st : List MessageDoc,
      ((updates.foldl (fun s r => updateMessageSentiment s r.messageId r.sentimentScore)
        st).map MessageDoc._id) = st.map MessageDoc._id := by
  induction updates with
  | nil => intro st; rfl
  | cons r rest ih =>
      intro st
      rw [List.foldl_cons, ih, update_map_id]

/-- Updating some other message preserves "every message with this id is
scored neutral". -/
lemma update_preserves_localgood (st : List MessageDoc) (id : String)
    (h : ∀ m ∈ st, m._id = id →
      m.sentimentProcessed = true ∧ m.sentimentScore = JSNum.fin 0)
    (rid : String) :
    ∀ m ∈ updateMessageSentiment st rid (JSNum.fin 0), m._id = id →
      m.sentimentProcessed = true ∧ m.sentimentScore = JSNum.fin 0 := by
  intro m hm hid
  obtain ⟨m0, hm0, hfm⟩ := List.mem_map.mp hm
  by_cases hc : m0._id = rid
  · rw [if_pos hc] at hfm
    rw [← hfm]
    exact ⟨rfl, rfl⟩
  · rw [if_neg hc] at hfm
    rw [← hfm] at hid ⊢
    exact h m0 hm0 hid

/-- Updating this id's message with the neutral score establishes
"every message with this id is scored neutral". -/
lemma update_establishes_localgood (st : List MessageDoc) (id : String) :
    ∀ m ∈ updateMessageSentiment st id (JSNum.fin 0), m._id = id →
      m.sentimentProcessed = true ∧ m.sentimentScore = JSNum.fin 0 := by
  intro m hm hid
  obtain ⟨m0, hm0, hfm⟩ := List.mem_map.mp hm
  by_cases hc : m0._id = id
  · rw [if_pos hc] at hfm
    rw [← hfm]
    exact ⟨rfl, rfl⟩
  · rw [if_neg hc] at hfm
    rw [← hfm] at hid
    exact absurd hid hc

/-- A fold of neutral updates preserves "every message with this id is
scored neutral". -/
lemma foldl_preserves_localgood (updates : List SentimentAnalysisResult) (id : String)
    (hscores : ∀ r ∈ updates, r.sentimentScore = JSNum.fin 0) :
    ∀ st : List MessageDoc,
      (∀ m ∈ st, m._id = id →
        m.sentimentProcessed = true ∧ m.sentimentScore = JSNum.fin 0) →
      ∀ m ∈ updates.foldl
          (fun s r => updateMessageSentiment s r.messageId r.sentimentScore) st,
        m._id = id → m.sentimentProcessed = true ∧ m.sentimentScore = JSNum.fin 0 := by
  induction updates with
  | nil => intro st h; exact h
  | cons r rest ih =>
      intro st h
      rw [List.foldl_cons]
      have hr0 := hscores r (List.mem_cons_self _ _)
      refine ih (fun x hx => hscores x (List.mem_cons_of_mem _ hx)) _ ?_
      rw [hr0]
      exact update_preserves_localgood st id h r.messageId

/-- After a fold of neutral updates one of which targets this id, every
message with this id is scored neutral. -/
lemma foldl_update_good (updates : List SentimentAnalysisResult) (id : String)
    (hscores : ∀ r ∈ updates, r.sentimentScore = JSNum.fin 0)
    (hid : id ∈ updates.map SentimentAnalysisResult.messageId) :
    ∀ st : List MessageDoc,
      ∀ m ∈ updates.foldl
          (fun s r => updateMessageSentiment s r.messageId r.sentimentScore) st,
        m._id = id → m.sentimentProcessed = true ∧ m.sentimentScore = JSNum.fin 0 := by
  induction updates with
  | nil => simp at hid
  | cons r rest ih =>
      intro st m hm hmid
      rw [List.foldl_cons] at hm
      by_cases hrest : id ∈ rest.map SentimentAnalysisResult.messageId
      · exact ih (fun x hx => hscores x (List.mem_cons_of_mem _ hx)) hrest _ m hm hmid
      · have hidr : id = r.messageId := by
          rw [List.map_cons, List.mem_cons] at hid
          rcases hid with h | h
          · exact h
          · exact absurd h hrest
        refine foldl_preserves_localgood rest id
          (fun x hx => hscores x (List.mem_cons_of_mem _ hx)) _ ?_ m hm hmid
        rw [hscores r (List.mem_cons_self _ _), hidr]
        exact update_establishes_localgood st r.messageId

/-- The validator is the identity on a neutral fallback result with a
well-formed message id. -/
lemma validateResult_neutral (id : String) (reason : Option String)
    (htrim : jsTrim id = id) (hne : id ≠ "") :
    (SentimentValidator.validateResult
      { messageId := id, sentimentScore := JSNum.fin 0, confidence := JSNum.fin (1/10),
        reasoning := reason }).2.2 =
      { messageId := id, sentimentScore := JSNum.fin 0, confidence := JSNum.fin (1/10),
        reasoning := reason } := by
  unfold SentimentValidator.validateResult SentimentValidator.validateScore
    SentimentValidator.validateConfidence
  simp only [JSNum.isNaN, JSNum.jsLt]
  norm_num
  rw [if_neg hne, htrim]

/-- The action's eligibility re-check implies the processor's filter. -/
lemma eligible_imp_validForProcessing {m : MessageDoc} (h : eligibleFetch m = true) :
    SentimentProcessor.validForProcessing m = true := by
  unfold eligibleFetch at h
  unfold SentimentProcessor.validForProcessing
  simp only [Bool.and_eq_true] at h ⊢
  exact ⟨⟨h.2, h.1.1⟩, h.1.2⟩

/-- When the classifier fails every call, `processBatch` emits one
neutral fallback per eligible message. -/
lemma processBatch_allfail (oracle : ℕ → ℕ → ClaudeAPIClient.SubBatchOutcome)
    (messages : List MessageDoc)
    (hfail : ∀ i j, (oracle i j).healthy = true ∧ ∀ a ∈ (oracle i j).attempts, a = none) :
    SentimentProcessor.processBatch oracle messages =
      (messages.filter SentimentProcessor.validForProcessing).map
        fun m => ClaudeAPIClient.batchFallback "Claude API failed after 3 attempts"
          (SentimentProcessor.toBatchMsg m) := by
  unfold SentimentProcessor.processBatch
  suffices h : ∀ (i : ℕ) (chunks : List (List MessageDoc)),
      SentimentProcessor.processBatchGo oracle i chunks =
        chunks.flatten.map (fun m =>
          ClaudeAPIClient.batchFallback "Claude API failed after 3 attempts"
            (SentimentProcessor.toBatchMsg m)) by
    rw [h 0, chunkList_flatten]
  intro i chunks
  induction chunks generalizing i with
  | nil => rfl
  | cons b rest ih =>
      show ClaudeAPIClient.analyzeSentimentBatch (oracle i)
          (b.map SentimentProcessor.toBatchMsg)
        ++ SentimentProcessor.processBatchGo oracle (i+1) rest = _
      rw [analyzeSentimentBatch_allfail _ _ (hfail i), ih (i+1), List.flatten_cons,
        List.map_append, List.map_map]
      rfl

/-- Every entry of `validMessages` comes from the fetch page, carries a
submitted id, and passed the eligibility re-check. -/
lemma scoreValidMessages_mem (store : List MessageDoc) (messageIds : List String) :
    ∀ m ∈ scoreValidMessages store messageIds,
      m ∈ getUnprocessedMessages store 1000 ∧ m._id ∈ messageIds
        ∧ eligibleFetch m = true := by
  intro m hm
  unfold scoreValidMessages at hm
  obtain ⟨p, hp, hfp⟩ := List.mem_filterMap.mp hm
  unfold scoreFetched at hp
  obtain ⟨id, hidmem, hpe⟩ := List.mem_map.mp hp
  subst hpe
  cases hfind : (getUnprocessedMessages store 1000).find? fun x => x._id = id with
  | none => rw [hfind] at hfp; simp at hfp
  | some mf =>
      rw [hfind] at hfp
      dsimp only at hfp
      by_cases he : eligibleFetch mf = true
      · rw [if_pos he] at hfp
        injection hfp with h
        subst h
        have hmem := List.mem_of_find?_eq_some hfind
        have hid : mf._id = id := by simpa using List.find?_some hfind
        exact ⟨hmem, hid ▸ hidmem, he⟩
      · rw [if_neg he] at hfp
        cases hfp

/-- Under distinct store ids, each submitted id with an eligible fetch
witness resolves through `find?` to that witness. -/
lemma scoreFetched_char (store : List MessageDoc) (messageIds : List String)
    (hnodup : (store.map MessageDoc._id).Nodup)
    (hids : ∀ id ∈ messageIds, ∃ m ∈ getUnprocessedMessages store 1000,
      m._id = id ∧ eligibleFetch m = true) :
    ∀ id ∈ messageIds, ∃ m,
      ((getUnprocessedMessages store 1000).find? fun x => x._id = id) = some m
      ∧ m._id = id ∧ eligibleFetch m = true := by
  intro id hid
  obtain ⟨m, hm, hmid, he⟩ := hids id hid
  refine ⟨m, ?_, hmid, he⟩
  have hnd2 : ((getUnprocessedMessages store 1000).map MessageDoc._id).Nodup :=
    hnodup.sublist (List.Sublist.map MessageDoc._id (getUnprocessed_sublist store 1000))
  have hfind := find?_msg_id _ hnd2 m hm
  rw [hmid] at hfind
  exact hfind

/-- When every submitted id resolves to an eligible message, the fetch
phase reports no failures. -/
lemma scoreFailedIds_nil (store : List MessageDoc) (messageIds : List String)
    (hchar : ∀ id ∈ messageIds, ∃ m,
      ((getUnprocessedMessages store 1000).find? fun x => x._id = id) = some m
      ∧ m._id = id ∧ eligibleFetch m = true) :
    scoreFailedIds store messageIds = [] := by
  unfold scoreFailedIds
  rw [List.map_eq_nil_iff, List.filter_eq_nil_iff]
  intro p hp
  unfold scoreFetched at hp
  obtain ⟨id, hidmem, hpe⟩ := List.mem_map.mp hp
  subst hpe
  obtain ⟨m, hfind, _, he⟩ := hchar id hidmem
  simp [hfind, he]

/-- When every submitted id resolves to an eligible message, every
submitted id appears in `validMessages`. -/
lemma scoreValidMessages_cover (store : List MessageDoc) (messageIds : List String)
    (hchar : ∀ id ∈ messageIds, ∃ m,
      ((getUnprocessedMessages store 1000).find? fun x => x._id = id) = some m
      ∧ m._id = id ∧ eligibleFetch m = true) :
    ∀ id ∈ messageIds, ∃ m ∈ scoreValidMessages store messageIds, m._id = id := by
  intro id hid
  obtain ⟨m, hfind, hmid, he⟩ := hchar id hid
  refine ⟨m, ?_, hmid⟩
  unfold scoreValidMessages
  apply List.mem_filterMap.mpr
  refine ⟨(id, (getUnprocessedMessages store 1000).find? fun x => x._id = id), ?_, ?_⟩
  · unfold scoreFetched
    exact List.mem_map_of_mem _ hid
  · simp [hfind, he]

/-- C1: in a scoring run where the classifier fails on every attempt of
every sub-batch call, and every submitted id resolves (within the fetch
page) to an eligible message — text-bearing, not deleted, not yet
scored, as the spec's `scoreMessages` contract assumes — the action
completes with a success summary (no exception escapes: every failure is
caught inside the handler, which the total model reflects), and every
submitted message ends stored with `sentimentProcessed = true` and the
neutral `sentimentScore = 0`. -/
theorem scoreMessages_allfail_neutral
    (oracle : ℕ → ℕ → ClaudeAPIClient.SubBatchOutcome)
    (store : List MessageDoc) (messageIds : List String)
    (hnodup : (store.map MessageDoc._id).Nodup)
    (hfail : ∀ i j, (oracle i j).healthy = true ∧ ∀ a ∈ (oracle i j).attempts, a = none)
    (hids : ∀ id ∈ messageIds, id ≠ "" ∧ jsTrim id = id ∧
      ∃ m ∈ getUnprocessedMessages store 1000, m._id = id ∧
        m.sentimentProcessed = false ∧ m.isDeleted = false ∧ 0 < (jsTrim m.text).length) :
    ((scoreMessages oracle true store messageIds).1).success = true
    ∧ (∀ id ∈ messageIds, ∃ m ∈ (scoreMessages oracle true store messageIds).2, m._id = id)
    ∧ (∀ id ∈ messageIds, ∀ m ∈ (scoreMessages oracle true store messageIds).2,
        m._id = id → m.sentimentProcessed = true ∧ m.sentimentScore = JSNum.fin 0) := by
  by_cases hnil : messageIds = []
  · subst hnil
    exact ⟨rfl, fun id hid => absurd hid (List.not_mem_nil id),
      fun id hid => absurd hid (List.not_mem_nil id)⟩
  · have hids' : ∀ id ∈ messageIds, ∃ m ∈ getUnprocessedMessages store 1000,
        m._id = id ∧ eligibleFetch m = true := by
      intro id hid
      obtain ⟨hne, htrim, m, hm, hmid, hproc, hdel, hlen⟩ := hids id hid
      exact ⟨m, hm, hmid, by simp [eligibleFetch, hproc, hdel, hlen]⟩
    have hchar := scoreFetched_char store messageIds hnodup hids'
    have hcover := scoreValidMessages_cover store messageIds hchar
    have hfailnil := scoreFailedIds_nil store messageIds hchar
    have hvne : scoreValidMessages store messageIds ≠ [] := by
      obtain ⟨id0, hid0⟩ := List.exists_mem_of_ne_nil messageIds hnil
      obtain ⟨m, hm, _⟩ := hcover id0 hid0
      exact List.ne_nil_of_mem hm
    have hvfacts : ∀ m ∈ scoreValidMessages store messageIds,
        m._id ≠ "" ∧ jsTrim m._id = m._id := by
      intro m hm
      obtain ⟨_, hmidmem, _⟩ := scoreValidMessages_mem store messageIds m hm
      obtain ⟨hne, htrim, _⟩ := hids _ hmidmem
      exact ⟨hne, htrim⟩
    have hbody : scoreMessages oracle true store messageIds =
        ({ success := decide (scoreFailedIds store messageIds = [])
           processedCount := (SentimentValidator.validateBatch
             (SentimentProcessor.processBatch oracle
               (scoreValidMessages store messageIds))).length
           failedCount := (scoreFailedIds store messageIds).length
           failedMessageIds := scoreFailedIds store messageIds },
         (SentimentValidator.validateBatch
           (SentimentProcessor.processBatch oracle
             (scoreValidMessages store messageIds))).foldl
           (fun st r => updateMessageSentiment st r.messageId r.sentimentScore) store) := by
      unfold scoreMessages
      rw [if_neg hnil, if_neg (by simp), if_neg hvne]
    have hfilter : (scoreValidMessages store messageIds).filter
        SentimentProcessor.validForProcessing = scoreValidMessages store messageIds := by
      apply List.filter_eq_self.mpr
      intro m hm
      exact eligible_imp_validForProcessing (scoreValidMessages_mem store messageIds m hm).2.2
    have hchain : SentimentValidator.validateBatch
        (SentimentProcessor.processBatch oracle (scoreValidMessages store messageIds)) =
        (scoreValidMessages store messageIds).map fun m =>
          { messageId := m._id, sentimentScore := JSNum.fin 0,
            confidence := JSNum.fin (1/10),
            reasoning := some ("Processing failed: "
              ++ "Claude API failed after 3 attempts") } := by
      rw [processBatch_allfail oracle _ hfail, hfilter]
      unfold SentimentValidator.validateBatch
      rw [List.map_map]
      apply List.map_congr_left
      intro m hm
      obtain ⟨hne, htrim⟩ := hvfacts m hm
      exact validateResult_neutral m._id _ htrim hne
    refine ⟨?_, ?_, ?_⟩
    · rw [hbody]
      show decide (scoreFailedIds store messageIds = []) = true
      rw [hfailnil]
      rfl
    · intro id hid
      rw [hbody]
      obtain ⟨hne, htrim, m0, hm0, hm0id, _⟩ := hids id hid
      have hm0store : m0 ∈ store := (getUnprocessed_sublist store 1000).subset hm0
      have hidmap : id ∈ ((SentimentValidator.validateBatch
          (SentimentProcessor.processBatch oracle
            (scoreValidMessages store messageIds))).foldl
          (fun st r => updateMessageSentiment st r.messageId r.sentimentScore) store).map
          MessageDoc._id := by
        rw [foldl_map_id]
        exact List.mem_map.mpr ⟨m0, hm0store, hm0id⟩
      obtain ⟨m, hm, hmid⟩ := List.mem_map.mp hidmap
      exact ⟨m, hm, hmid⟩
    · intro id hid m hm hmid
      rw [hbody] at hm
      rw [hchain] at hm
      refine foldl_update_good _ id ?_ ?_ store m hm hmid
      · intro r hr
        obtain ⟨m0, _, hm0⟩ := List.mem_map.mp hr
        rw [← hm0]
      · rw [List.map_map]
        obtain ⟨m0, hm0v, hm0id⟩ := hcover id hid
        exact List.mem_map.mpr ⟨m0, hm0v, hm0id⟩

/-- Concrete unscored message for the C1 witness. -/
def msgW : MessageDoc :=
  { _id := "m1", slackChannelId := "C1", slackMessageId := "100.1", userId := "U1",
    text := "hello team", username := "ann", timestamp := 100, threadTs := none,
    reactions := [], sentimentScore := JSNum.fin 0, sentimentProcessed := false,
    isDeleted := false }

/-- C1 witness: the end-to-end theorem applied to a one-message store
with an always-failing classifier — the run reports success. -/
theorem scoreMessages_allfail_neutral_witness :
    ((scoreMessages (fun _ _ => { healthy := true, attempts := List.replicate 3 none })
      true [msgW] ["m1"]).1).success = true :=
  (scoreMessages_allfail_neutral _ [msgW] ["m1"]
    (by simp)
    (fun i j => ⟨rfl, fun a ha => List.eq_of_mem_replicate ha⟩)
    (by
      intro id hid
      rw [List.mem_singleton] at hid
      subst hid
      refine ⟨by decide, by decide, msgW, ?_, rfl, rfl, rfl, by decide⟩
      show msgW ∈ getUnprocessedMessages [msgW] 1000
      decide)).1
